import Mathlib

/-!
Verification development for the dci-analytics normalization pipeline.

This file gives a shallow embedding of the two pipeline stages of the
repository:

* `LshwNormalizer` — the type normalizer of
  `dci_analytics/synchronizers/normalization_jobs_extra.py`;
* `HardwareInfo` — the hardware extractor of
  `dci_analytics/synchronizers/normalization_jobs_extra_hardware.py`,

and proves properties of the embedded definitions.

Modelling conventions:

* JSON documents (the result of Python's `json.load`) are modelled by the
  inductive type `Json`.  Python dicts are association lists in insertion
  order (Python dicts are ordered and have unique keys; lookups take the
  first matching key).  Python numbers (`int` and `float`) are both
  modelled by `ℚ`; the claims under study only involve exact values for
  which float rounding is not observable.
* Python code that can raise is embedded in the `Except String` monad; the
  error string names the Python exception.  Pure code stays pure.
* Python string methods are re-implemented on `List Char` because they
  must reduce inside the kernel; `lower`/`upper` handle the ASCII range
  (the inputs exercised by the repository are ASCII).
-/

set_option maxHeartbeats 1000000

namespace DciAnalytics

/-! ## Python string primitives -/

/-- ASCII lowercasing of one character (models Python `str.lower` on the
ASCII range). -/
def charLower (c : Char) : Char :=
  if 'A' ≤ c ∧ c ≤ 'Z' then Char.ofNat (c.toNat + 32) else c

/-- ASCII uppercasing of one character (models Python `str.upper` on the
ASCII range). -/
def charUpper (c : Char) : Char :=
  if 'a' ≤ c ∧ c ≤ 'z' then Char.ofNat (c.toNat - 32) else c

/-- Models Python `str.lower()`. -/
def strLower (s : String) : String := String.mk (s.data.map charLower)

/-- Models Python `str.upper()`. -/
def strUpper (s : String) : String := String.mk (s.data.map charUpper)

/-- Models Python `str.strip()`: drop whitespace from both ends. -/
def strTrim (s : String) : String :=
  String.mk (((s.data.dropWhile Char.isWhitespace).reverse.dropWhile
      Char.isWhitespace).reverse)

/-- Models Python `str.startswith(pre)`. -/
def strStartsWith (s pre : String) : Bool := pre.data.isPrefixOf s.data

/-- Does `needle` occur as a contiguous run inside the character list?
Auxiliary for the Python substring test `needle in haystack`. -/
def listContainsSub (needle : List Char) : List Char → Bool
  | [] => needle.isEmpty
  | c :: rest => needle.isPrefixOf (c :: rest) || listContainsSub needle rest

/-- Models the Python substring test `needle in haystack` for strings. -/
def containsSub (haystack needle : String) : Bool :=
  listContainsSub needle.data haystack.data

/-- Collect the maximal runs of characters not satisfying `p`, discarding
separators; `acc` holds the current run reversed.  This matches Python
`str.split()` semantics (no empty items). -/
def splitRunsAux (p : Char → Bool) : List Char → List Char → List (List Char)
  | [], acc => if acc.isEmpty then [] else [acc.reverse]
  | c :: rest, acc =>
    if p c then
      if acc.isEmpty then splitRunsAux p rest []
      else acc.reverse :: splitRunsAux p rest []
    else splitRunsAux p rest (c :: acc)

/-- Models Python `str.split()` (split on whitespace runs, no empties). -/
def pySplitWs (s : String) : List String :=
  (splitRunsAux Char.isWhitespace s.data []).map String.mk

/-- Models `re.split(r"[,\s]+", s)` followed by dropping empty parts, as the
Intel firmware branch of the source does. -/
def pySplitCommaWs (s : String) : List String :=
  (splitRunsAux (fun c => c = ',' || c.isWhitespace) s.data []).map String.mk

/-- Hexadecimal digit, as in the character class `[0-9A-Fa-f]`. -/
def hexChar (c : Char) : Bool :=
  c.isDigit || ('a' ≤ c ∧ c ≤ 'f') || ('A' ≤ c ∧ c ≤ 'F')

/-- Numeric value of a list of decimal digits. -/
def digitsVal (ds : List Char) : Nat :=
  ds.foldl (fun a c => a * 10 + (c.toNat - 48)) 0

/-- Models `s.replace("0x", "")`: remove every occurrence of `0x`, scanning
left to right without overlap (the only `replace` the source performs). -/
def remove0x : List Char → List Char
  | '0' :: 'x' :: rest => remove0x rest
  | c :: rest => c :: remove0x rest
  | [] => []

/-! ## Python numeric conversions -/

/-- Models Python `int(s)` on decimal strings: optional surrounding
whitespace, optional sign, at least one digit.  (Underscore separators and
non-ASCII digits, which CPython also accepts, are not modelled; none occur
in the repository's data.) -/
def pyInt (s : String) : Option Int :=
  match (strTrim s).data with
  | '-' :: ds =>
    if ds ≠ [] ∧ ds.all Char.isDigit then some (-(digitsVal ds : Int)) else none
  | '+' :: ds =>
    if ds ≠ [] ∧ ds.all Char.isDigit then some (digitsVal ds : Int) else none
  | ds =>
    if ds ≠ [] ∧ ds.all Char.isDigit then some (digitsVal ds : Int) else none

/-- Exponent part of a float literal: optional sign then at least one
digit; returns the scale factor `10 ^ e`. -/
def pyFloatExp (cs : List Char) : Option ℚ :=
  let (esgn, ds) : Int × List Char :=
    match cs with
    | '-' :: r => (-1, r)
    | '+' :: r => (1, r)
    | r => (1, r)
  if ds ≠ [] ∧ ds.all Char.isDigit then
    some ((10 : ℚ) ^ (esgn * (digitsVal ds : Int)))
  else none

/-- Models Python `float(s)` on plain decimal forms
`sign? digits* [. digits*] [(e|E) sign? digits+]` with at least one
mantissa digit.  (`inf`/`nan` literals and underscores are not modelled;
the claims do not depend on them.) -/
def pyFloat (s : String) : Option ℚ :=
  let cs := (strTrim s).data
  let (sgn, cs1) : ℚ × List Char :=
    match cs with
    | '-' :: r => (-1, r)
    | '+' :: r => (1, r)
    | r => (1, r)
  let ip := cs1.takeWhile Char.isDigit
  let r2 := cs1.dropWhile Char.isDigit
  match r2 with
  | [] => if ip.isEmpty then none else some (sgn * (digitsVal ip : ℚ))
  | '.' :: r3 =>
    let fp := r3.takeWhile Char.isDigit
    let r4 := r3.dropWhile Char.isDigit
    if ip.isEmpty ∧ fp.isEmpty then none
    else
      let mant : ℚ := (digitsVal ip : ℚ) + (digitsVal fp : ℚ) / (10 ^ fp.length)
      match r4 with
      | [] => some (sgn * mant)
      | e :: r5 =>
        if e = 'e' ∨ e = 'E' then (pyFloatExp r5).map (fun x => sgn * mant * x)
        else none
  | e :: r5 =>
    if (e = 'e' ∨ e = 'E') ∧ ¬ ip.isEmpty then
      (pyFloatExp r5).map (fun x => sgn * (digitsVal ip : ℚ) * x)
    else none

/-- Round-half-to-even to an integer, as Python's `round` does on exact
values. -/
def roundHalfEven (q : ℚ) : ℤ :=
  let f : ℤ := ⌊q⌋
  let r : ℚ := q - f
  if r < 1 / 2 then f
  else if 1 / 2 < r then f + 1
  else if f % 2 = 0 then f else f + 1

/-- Models Python `round(x, 1)` on exact values (float representation error
is not modelled; the claims only involve exactly representable results). -/
def pyRound1 (q : ℚ) : ℚ := (roundHalfEven (q * 10) : ℚ) / 10

/-- Models Python `int(x)` on a number: truncation toward zero. -/
def pyTrunc (q : ℚ) : ℤ := if q < 0 then -⌊-q⌋ else ⌊q⌋

/-! ## The JSON document model -/

/-- JSON values as produced by Python's `json.load`: objects are ordered
association lists (Python dicts preserve insertion order and have unique
keys; lookups return the first matching key). -/
inductive Json where
  | null
  | bool (b : Bool)
  | num (q : ℚ)
  | str (s : String)
  | arr (items : List Json)
  | obj (fields : List (String × Json))

/-- First binding of `key` in an object's field list (Python dict access). -/
def lookupField : List (String × Json) → String → Option Json
  | [], _ => none
  | (k, v) :: rest, key => if k = key then some v else lookupField rest key

/-- Python truthiness of a JSON value (`bool(x)`). -/
def Json.truthy : Json → Bool
  | .null => false
  | .bool b => b
  | .num q => decide (q ≠ 0)
  | .str s => decide (s ≠ "")
  | .arr l => !l.isEmpty
  | .obj fs => !fs.isEmpty

/-- Is the value a Python `bool`? -/
def Json.isBool : Json → Bool
  | .bool _ => true
  | _ => false

/-- Python `==` between a JSON value and a string literal: only equal when
the value is that string (cross-type comparison is `False`). -/
def jsonEqStr (j : Json) (s : String) : Bool :=
  match j with
  | .str t => t = s
  | _ => false

/-- Models Python `value.get(k)` on an arbitrary value: `AttributeError`
when the receiver is not a dict. -/
def pyGet (j : Json) (k : String) : Except String (Option Json) :=
  match j with
  | .obj fs => .ok (lookupField fs k)
  | _ => .error "AttributeError: object has no attribute get"

/-- Models calling a `str` method on an arbitrary value: `TypeError` (or
`AttributeError`) when the receiver is not a string. -/
def asStr : Json → Except String String
  | .str s => .ok s
  | _ => .error "TypeError: expected a string"

/-- Models treating an arbitrary value as a dict. -/
def asObj : Json → Except String (List (String × Json))
  | .obj fs => .ok fs
  | _ => .error "AttributeError: object has no attribute get"

/-- Models the Python membership test `needle in container` for a string
needle: substring test on strings, element equality on lists, key
membership on dicts, `TypeError` otherwise. -/
def pyInStr (needle : String) : Json → Except String Bool
  | .str s => .ok (containsSub s needle)
  | .arr l => .ok (l.any (fun j => jsonEqStr j needle))
  | .obj fs => .ok (fs.any (fun kv => kv.1 = needle))
  | _ => .error "TypeError: argument is not iterable"

/-- Python `a or b` (first operand when truthy, otherwise the second). -/
def pyOr (a b : Json) : Json := if a.truthy then a else b

/-- Models Python `str(v)` as used for the `physid`/`version` fields.
Numbers print as integers when integral and as `num/den` otherwise (CPython
prints floats in decimal notation; the claims only rely on `str()`
producing a string and being the identity on strings). -/
def pyStr : Json → String
  | .str s => s
  | .bool true => "True"
  | .bool false => "False"
  | .num q => if q.den = 1 then toString q.num else toString q.num ++ "/" ++ toString q.den
  | .null => "None"
  | .arr _ => "<list>"
  | .obj _ => "<dict>"

/-! ## Type Normalizer (`normalization_jobs_extra.py`, class LshwNormalizer) -/

namespace LshwNormalizer

/-- Fields that should always be numeric (`self.numeric_fields`). -/
def numeric_fields : List String :=
  ["latency", "cores", "enabledcores", "microcode", "threads", "level",
   "ansiversion", "size", "capacity", "width", "clock", "units", "depth",
   "FATs", "logicalsectorsize", "sectorsize"]

/-- Fields that should always be boolean (`self.boolean_fields`). -/
def boolean_fields : List String :=
  ["claimed", "disabled", "boot", "broadcast", "link", "multicast", "slave",
   "removable", "audio", "dvd"]

/-- Capability keys that are typically boolean
(`self.capability_boolean_patterns`). -/
def capability_boolean_patterns : List String :=
  ["pci", "pciexpress", "pm", "msi", "msix", "bus_master", "cap_list",
   "rom", "fb", "pnp", "upgrade", "shadowing", "cdboot", "bootselect",
   "edd", "usb", "netboot", "acpi", "biosbootspecification", "uefi",
   "escd", "virtualmachine", "smp", "vsyscall32", "gpt-1_00",
   "partitioned", "partitioned:gpt", "nofs", "fat", "initialized",
   "journaled", "extended_attributes", "large_files", "huge_files",
   "dir_nlink", "recover", "extents", "ethernet", "physical", "removable",
   "audio", "dvd"]

/-- Negation markers scanned for inside descriptive capability strings. -/
def negative_words : List String :=
  [" no ", "not ", "none", "disabled", "unsupported", "unavailable"]

/-- `LshwNormalizer.is_valid_lshw`. -/
def is_valid_lshw (data : Json) : Bool :=
  match data with
  | .obj fs =>
    match lookupField fs "hardware" with
    | some (.obj hfs) =>
      match lookupField hfs "data" with
      | some (.obj dfs) =>
        (lookupField dfs "id").isSome && (lookupField dfs "class").isSome
      | _ => false
    | _ => false
  | _ => false

/-- `LshwNormalizer.normalize_boolean`. -/
def normalize_boolean (value : Json) : Json :=
  match value with
  | .bool b => .bool b
  | .str s =>
    let lower_val := strTrim (strLower s)
    if lower_val = "true" ∨ lower_val = "yes" ∨ lower_val = "1" ∨ lower_val = "on" then
      .bool true
    else if lower_val = "false" ∨ lower_val = "no" ∨ lower_val = "0" ∨ lower_val = "off" then
      .bool false
    else .str s
  | .num q => .bool (decide (q ≠ 0))
  | j => j

/-- `LshwNormalizer.normalize_numeric` (the `field_name` parameter is
unused in the source and dropped here). -/
def normalize_numeric (value : Json) : Json :=
  match value with
  | .num q => .num q
  | .str s =>
    match pyInt s with
    | some n => .num (n : ℚ)
    | none =>
      match pyFloat s with
      | some q => .num q
      | none => .str s
  | j => j

/-- `LshwNormalizer.normalize_logicalname`. -/
def normalize_logicalname (value : Json) : Json :=
  match value with
  | .arr l => .arr l
  | .str s => .arr [.str s]
  | j => j

/-- `LshwNormalizer.normalize_configuration` (the `path` parameter is only
used for logging in the source and is dropped here). -/
def normalize_configuration (config : List (String × Json)) : List (String × Json) :=
  config.map (fun kv =>
    if boolean_fields.contains kv.1 then (kv.1, normalize_boolean kv.2)
    else if numeric_fields.contains kv.1 then (kv.1, normalize_numeric kv.2)
    else kv)

/-- Per-key body of `LshwNormalizer.normalize_capabilities`. -/
def normalize_capability_value (key : String) (value : Json) : Json :=
  if capability_boolean_patterns.contains key || value.isBool then
    match value with
    | .str s =>
      let lower_val := strTrim (strLower s)
      if lower_val = "true" ∨ lower_val = "false" ∨ lower_val = "yes" ∨
         lower_val = "no" ∨ lower_val = "1" ∨ lower_val = "0" then
        normalize_boolean (.str s)
      else if negative_words.any (fun neg => containsSub lower_val neg) then
        .bool false
      else .bool true
    | j => j
  else value

/-- `LshwNormalizer.normalize_capabilities`. -/
def normalize_capabilities (capabilities : List (String × Json)) : List (String × Json) :=
  capabilities.map (fun kv => (kv.1, normalize_capability_value kv.1 kv.2))

mutual

/-- `LshwNormalizer.normalize_node` (the `path` parameter is only used for
logging and is dropped): normalize dicts and lists structurally, keep
scalars. -/
def normalize_node : Json → Json
  | .obj fields => .obj (normalize_fields fields)
  | .arr items => .arr (normalize_items items)
  | j => j

/-- The list branch of `normalize_node`: normalize dict/list items, keep
scalars (`normalize_node` is the identity on scalars, so this matches the
source's `isinstance(item, (dict, list))` guard). -/
def normalize_items : List Json → List Json
  | [] => []
  | item :: rest =>
    (match item with
     | .obj fs => .obj (normalize_fields fs)
     | .arr l => .arr (normalize_items l)
     | j => j) :: normalize_items rest
termination_by structural l => l

/-- The dict branch of `normalize_node`: apply `normalize_field` to every
binding. -/
def normalize_fields : List (String × Json) → List (String × Json)
  | [] => []
  | (k, v) :: rest => (k, normalize_field k v) :: normalize_fields rest
termination_by structural l => l

/-- The per-key dispatch of `normalize_node` (the if/elif chain of the
source, in source order).  A `configuration`/`capabilities` key whose value
is not a dict falls through the chain to the structural branch, because
those key names are in neither field-name set. -/
def normalize_field (k : String) (v : Json) : Json :=
  if k = "configuration" then
    match v with
    | .obj fs => .obj (normalize_configuration fs)
    | .arr items => .arr (normalize_items items)
    | j => j
  else if k = "capabilities" then
    match v with
    | .obj fs => .obj (normalize_capabilities fs)
    | .arr items => .arr (normalize_items items)
    | j => j
  else if k = "logicalname" then normalize_logicalname v
  else if k = "physid" then match v with | .null => .null | w => .str (pyStr w)
  else if k = "version" then match v with | .null => .null | w => .str (pyStr w)
  else if boolean_fields.contains k then normalize_boolean v
  else if numeric_fields.contains k then normalize_numeric v
  else
    match v with
    | .obj fs => .obj (normalize_fields fs)
    | .arr items => .arr (normalize_items items)
    | j => j
termination_by structural v

end

/-- `LshwNormalizer.normalize` (the `input_name` parameter is only used for
logging and is dropped).  The `try`/`except` of the source cannot fire on
JSON-shaped input — every operation below is total — so the embedded
function is pure; the empty dict is returned exactly on invalid input. -/
def normalize (input_data : Json) : Json :=
  if is_valid_lshw input_data then
    match input_data with
    | .obj fs =>
      match lookupField fs "hardware" with
      | some (.obj hfs) =>
        match lookupField hfs "data" with
        | some d =>
          .obj [("hardware",
            .obj [("node", (lookupField hfs "node").getD .null),
                  ("data", normalize_node d),
                  ("error", (lookupField hfs "error").getD (.str ""))])]
        | none => .obj []
      | _ => .obj []
    | _ => .obj []
  else .obj []

end LshwNormalizer

/-! ## Regex models for the Hardware Extractor

Each Python regex of `normalization_jobs_extra_hardware.py` is deterministic
on its input (every quantified class is disjoint from the character that
follows it), so each is modelled by a hand-rolled parser taking maximal
runs.  The lazy group `(.+?)` with an end-anchored tail is modelled by
scanning split positions left to right. -/

/-- Scan the split positions of `^(.+?)<tail>` left to right: `acc` is the
reversed prefix consumed so far; at each position the remainder is offered
to the end-anchored `tail` parser.  `.` does not match a newline, so the
scan stops at the first `'\n'`. -/
def lazyScan {α : Type} (tail : List Char → Option α) :
    List Char → List Char → Option (List Char × α)
  | _, [] => none
  | acc, c :: rest =>
    if c = '\n' then none
    else
      match tail rest with
      | some a => some ((c :: acc).reverse, a)
      | none => lazyScan tail (c :: acc) rest

/-- Tail `\s*\[([0-9A-Fa-f]+)\]$` of the vendor-string regex; returns the
hex group. -/
def vendorTail (cs : List Char) : Option (List Char) :=
  match cs.dropWhile Char.isWhitespace with
  | '[' :: rest =>
    let h := rest.takeWhile hexChar
    if h.isEmpty then none
    else
      match rest.dropWhile hexChar with
      | [']'] => some h
      | _ => none
  | _ => none

/-- Models `re.match(r"^(.+?)\s*\[([0-9A-Fa-f]+)\]$", s)`, returning the raw
groups `(name, hex-id)`. -/
def vendorMatch (s : String) : Option (String × String) :=
  (lazyScan vendorTail [] s.data).map (fun p => (String.mk p.1, String.mk p.2))

/-- Tail `\s*\[([0-9A-Fa-f]+):([0-9A-Fa-f]+)\]$` of the product-string
regex; returns the two hex groups. -/
def productTail (cs : List Char) : Option (List Char × List Char) :=
  match cs.dropWhile Char.isWhitespace with
  | '[' :: rest =>
    let h1 := rest.takeWhile hexChar
    if h1.isEmpty then none
    else
      match rest.dropWhile hexChar with
      | ':' :: rest2 =>
        let h2 := rest2.takeWhile hexChar
        if h2.isEmpty then none
        else
          match rest2.dropWhile hexChar with
          | [']'] => some (h1, h2)
          | _ => none
      | _ => none
  | _ => none

/-- Models `re.match(r"^(.+?)\s*\[([0-9A-Fa-f]+):([0-9A-Fa-f]+)\]$", s)`. -/
def productMatch (s : String) : Option (String × String × String) :=
  (lazyScan productTail [] s.data).map
    (fun p => (String.mk p.1, String.mk p.2.1, String.mk p.2.2))

/-- Tail `\s*\(([^)]+)\)$` of the system-model regex; returns the
parenthesised group. -/
def parenTail (cs : List Char) : Option (List Char) :=
  match cs.dropWhile Char.isWhitespace with
  | '(' :: rest =>
    let content := rest.takeWhile (fun c => c ≠ ')')
    if content.isEmpty then none
    else
      match rest.dropWhile (fun c => c ≠ ')') with
      | [')'] => some content
      | _ => none
  | _ => none

/-- Models `re.match(r"^(.+?)\s*\(([^)]+)\)$", s)`, returning the raw
groups. -/
def systemModelMatch (s : String) : Option (String × String) :=
  (lazyScan parenTail [] s.data).map (fun p => (String.mk p.1, String.mk p.2))

/-- One attempt of `re.search(r"SKU=([^;]+)", s)` at the current position. -/
def skuTryAt (cs : List Char) : Option (List Char) :=
  if ['S', 'K', 'U', '='].isPrefixOf cs then
    let content := (cs.drop 4).takeWhile (fun c => c ≠ ';')
    if content.isEmpty then none else some content
  else none

/-- Models `re.search(r"SKU=([^;]+)", s)`: leftmost match wins. -/
def skuSearch : List Char → Option (List Char)
  | [] => none
  | c :: rest =>
    match skuTryAt (c :: rest) with
    | some g => some g
    | none => skuSearch rest

/-- Models `re.match(r"^([\d.]+)\s*\(([^)]+)\)", s)` of the Mellanox
firmware branch (not anchored at the end), returning `(primary, psid)`. -/
def mellanoxMatch (s : String) : Option (String × String) :=
  let cs := s.data
  let prim := cs.takeWhile (fun c => c.isDigit || c = '.')
  if prim.isEmpty then none
  else
    match (cs.dropWhile (fun c => c.isDigit || c = '.')).dropWhile Char.isWhitespace with
    | '(' :: rest =>
      let content := rest.takeWhile (fun c => c ≠ ')')
      if content.isEmpty then none
      else
        match rest.dropWhile (fun c => c ≠ ')') with
        | ')' :: _ => some (String.mk prim, String.mk content)
        | _ => none
    | _ => none

/-- One attempt of `re.search(r"NCSI\s+(v[\d.]+)", s)` at the current
position. -/
def ncsiTryAt (cs : List Char) : Option String :=
  if ['N', 'C', 'S', 'I'].isPrefixOf cs then
    let r1 := cs.drop 4
    if (r1.takeWhile Char.isWhitespace).isEmpty then none
    else
      match r1.dropWhile Char.isWhitespace with
      | 'v' :: r2 =>
        let run := r2.takeWhile (fun c => c.isDigit || c = '.')
        if run.isEmpty then none else some (String.mk ('v' :: run))
      | _ => none
  else none

/-- Models `re.search(r"NCSI\s+(v[\d.]+)", s)`: leftmost match wins. -/
def ncsiSearch : List Char → Option String
  | [] => none
  | c :: rest =>
    match ncsiTryAt (c :: rest) with
    | some g => some g
    | none => ncsiSearch rest

/-- One attempt of `re.search(r"(\d+)\s*(Gbit|Mbit)", s)` at the current
position; returns the numeric group and whether the unit is `Gbit`. -/
def speedTryAt (cs : List Char) : Option (Nat × Bool) :=
  let ds := cs.takeWhile Char.isDigit
  if ds.isEmpty then none
  else
    let r1 := (cs.dropWhile Char.isDigit).dropWhile Char.isWhitespace
    if ['G', 'b', 'i', 't'].isPrefixOf r1 then some (digitsVal ds, true)
    else if ['M', 'b', 'i', 't'].isPrefixOf r1 then some (digitsVal ds, false)
    else none

/-- Models `re.search(r"(\d+)\s*(Gbit|Mbit)", s)`: leftmost match wins. -/
def speedSearch : List Char → Option (Nat × Bool)
  | [] => none
  | c :: rest =>
    match speedTryAt (c :: rest) with
    | some g => some g
    | none => speedSearch rest

/-- One attempt of `re.search(r"(\d+)gbit", s)` at the current position. -/
def gbitTryAt (cs : List Char) : Option Nat :=
  let ds := cs.takeWhile Char.isDigit
  if ds.isEmpty then none
  else if ['g', 'b', 'i', 't'].isPrefixOf (cs.dropWhile Char.isDigit) then
    some (digitsVal ds)
  else none

/-- Models `re.search(r"(\d+)gbit", s)`: leftmost match wins. -/
def gbitSearch : List Char → Option Nat
  | [] => none
  | c :: rest =>
    match gbitTryAt (c :: rest) with
    | some g => some g
    | none => gbitSearch rest

/-- Models
`re.match(r"pci@[0-9a-fA-F]+:([0-9a-fA-F]+):([0-9a-fA-F]+)\.([0-9a-fA-F]+)", s)`,
returning group 2 (the PCI device field).  Every hex run is maximal because
the character that follows it (`:` or `.`) is not a hex digit; the match is
not anchored at the end. -/
def pciDeviceField (s : String) : Option String :=
  if strStartsWith s "pci@" then
    match (s.data.drop 4).takeWhile hexChar, (s.data.drop 4).dropWhile hexChar with
    | _ :: _, ':' :: r2 =>
      match r2.takeWhile hexChar, r2.dropWhile hexChar with
      | _ :: _, ':' :: r4 =>
        match r4.takeWhile hexChar, r4.dropWhile hexChar with
        | d3h :: d3t, '.' :: r6 =>
          match r6.takeWhile hexChar with
          | [] => none
          | _ :: _ => some (String.mk (d3h :: d3t))
        | _, _ => none
      | _, _ => none
    | _, _ => none
  else none

/-! ## Hardware Extractor (`normalization_jobs_extra_hardware.py`, class HardwareInfo) -/

/-- The firmware descriptor built by `HardwareInfo._parse_firmware_string`.
The source returns a dict; for absent input it carries only the keys
`primary`/`extended`, but callers read every key with `.get`, so the
observable behaviour is that of an all-`None` record. -/
structure FirmwareInfo where
  primary : Json := .null
  extended : Json := .null
  bootcode : Json := .null
  nvm : Json := .null
  psid : Json := .null
  ncsi : Json := .null

/-- One entry of the `storage_devices` list (`_parse_storage_device`). -/
structure StorageDevice where
  type : String
  description : Json
  vendor : Option String
  vendor_id : Option String
  model : Option String
  device_id : Option String
  size_gb : ℚ
  version : Json
  firmware : Json
  businfo : Json

/-- One entry of the `network_interfaces` list
(`_parse_network_interface`).  The four `firmware_*` extras are `some` .
exactly when the source adds the corresponding key. -/
structure NetworkInterface where
  description : Json
  vendor : Option String
  vendor_id : Option String
  model : Option String
  device_id : Option String
  subvendor_id : Option String
  subdevice_id : Option String
  logical_name : Json
  link_status : Option Bool
  duplex : Json
  autonegotiation : Option Bool
  speed_mbps : Option Int
  driver : Json
  driver_version : Json
  firmware : Json
  firmware_version : Json
  is_virtual_function : Bool
  businfo : Json
  firmware_bootcode : Option Json
  firmware_nvm : Option Json
  firmware_psid : Option Json
  firmware_ncsi : Option Json

/-- One entry of a PCI category list (`_parse_pci_device`). -/
structure PciDevice where
  description : Json
  vendor : Option String
  vendor_id : Option String
  model : Option String
  device_id : Option String
  subvendor_id : Option String
  subdevice_id : Option String
  is_virtual_function : Bool
  businfo : Json
  logical_name : Json

/-- The flat profile returned by `HardwareInfo.parse`. -/
structure CanonicalProfile where
  node : Json
  system_vendor : Json
  system_model : Option String
  system_sku : Option String
  system_family : Json
  bios_vendor : Json
  bios_version : Json
  bios_date : Json
  bios_type : Option String
  cpu_vendor : Option String
  cpu_model : Json
  cpu_sockets : Nat
  cpu_total_cores : ℚ
  cpu_total_threads : ℚ
  cpu_frequency_mhz : Option Int
  memory_total_gb : ℚ
  memory_dimm_count : Nat
  storage_devices : List StorageDevice
  network_interfaces : List NetworkInterface
  pci_storage_controllers : List PciDevice
  pci_network_controllers : List PciDevice
  pci_usb_controllers : List PciDevice
  pci_accelerators : List PciDevice
  pci_other_devices : List PciDevice

/-- The state built by `HardwareInfo.__init__`. -/
structure HardwareInfo where
  node : Json
  data : Json
  input_name : String

namespace HardwareInfo

/-- `HardwareInfo.__init__`: succeeds exactly when the raw document has a
`hardware` key bound to a dict; otherwise it raises — a `ValueError` when
the membership test `"hardware" in raw_data` is `False` (dicts without the
key, lists without that element, strings without that substring), and a
`TypeError` from the membership test or the subscript otherwise. -/
def init (input_name : String) (raw_data : Json) : Except String HardwareInfo :=
  let valueError : Except String HardwareInfo :=
    .error ("ValueError: Invalid hardware JSON format in " ++ input_name
      ++ ": missing 'hardware' wrapper")
  match raw_data with
  | .obj fs =>
    match lookupField fs "hardware" with
    | some (.obj hfs) =>
      .ok { node := (lookupField hfs "node").getD (.str ""),
            data := (lookupField hfs "data").getD (.obj []),
            input_name := input_name }
    | _ => valueError
  | .arr items =>
    if items.any (fun j => jsonEqStr j "hardware") then
      .error "TypeError: list indices must be integers or slices"
    else valueError
  | .str s =>
    if containsSub s "hardware" then
      .error "TypeError: string indices must be integers"
    else valueError
  | _ => .error "TypeError: argument is not iterable"

/-- `HardwareInfo._parse_vendor_string`. -/
def parse_vendor_string (vendor_str : Json) :
    Except String (Option String × Option String) := do
  if ¬ vendor_str.truthy then return (none, none)
  let s ← asStr vendor_str
  match vendorMatch s with
  | some (g1, g2) => return (some (strTrim g1), some (strUpper g2))
  | none => return (some s, none)

/-- `HardwareInfo._parse_product_string`. -/
def parse_product_string (product_str : Json) :
    Except String (Option String × Option String × Option String) := do
  if ¬ product_str.truthy then return (none, none, none)
  let s ← asStr product_str
  match productMatch s with
  | some (g1, g2, g3) => return (some (strTrim g1), some (strUpper g2), some (strUpper g3))
  | none => return (some s, none, none)

/-- The Broadcom branch of `_parse_firmware_string` (called once the value
is known to be a string — `.split()` would raise otherwise). -/
def parse_firmware_broadcom (fw : String) : FirmwareInfo :=
  let parts := pySplitWs fw
  let primary : Json := match parts with | [] => .str fw | p :: _ => .str p
  let bootcode : Json :=
    if parts.contains "bc" then
      match parts.drop (parts.findIdx (fun p => p = "bc") + 1) with
      | next :: _ => .str next
      | [] => .null
    else .null
  let ncsi : Json :=
    if containsSub fw "NCSI" then
      match ncsiSearch fw.data with
      | some g => .str g
      | none => .null
    else .null
  let extended : Json :=
    if 1 < parts.length then .str (String.intercalate " " (parts.drop 1)) else .null
  { primary := primary, extended := extended, bootcode := bootcode, ncsi := ncsi }

/-- The Intel branch of `_parse_firmware_string`. -/
def parse_firmware_intel (fw : String) : FirmwareInfo :=
  let parts := pySplitCommaWs (strTrim fw)
  let primary : Json := match parts with | [] => .str fw | p :: _ => .str p
  if 3 ≤ parts.length then
    let last := parts.getLastD ""
    { primary := primary, nvm := .str last, extended := .str ("NVM " ++ last) }
  else if 1 < parts.length then
    { primary := primary, extended := .str (String.intercalate " " (parts.drop 1)) }
  else
    { primary := primary }

/-- The Mellanox branch of `_parse_firmware_string`. -/
def parse_firmware_mellanox (fw : String) : FirmwareInfo :=
  match mellanoxMatch fw with
  | some (prim, psid) =>
    { primary := .str prim, psid := .str psid, extended := .str ("PSID: " ++ psid) }
  | none => { primary := .str fw }

/-- The generic branch of `_parse_firmware_string`. -/
def parse_firmware_generic (fw : String) : FirmwareInfo :=
  let parts := pySplitWs fw
  let primary : Json := match parts with | [] => .str fw | p :: _ => .str p
  let extended : Json :=
    if 1 < parts.length then .str (String.intercalate " " (parts.drop 1)) else .null
  { primary := primary, extended := extended }

/-- `HardwareInfo._parse_firmware_string`: the vendor-conditional
dispatcher.  The Red Hat/Virtio branch calls no string method, so any
truthy value passes through there unchanged. -/
def parse_firmware_string (firmware_str : Json) (vendor_name : Option String) :
    Except String FirmwareInfo := do
  if ¬ firmware_str.truthy then return {}
  let vendor_lower := strLower (vendor_name.getD "")
  if containsSub vendor_lower "broadcom" then
    return parse_firmware_broadcom (← asStr firmware_str)
  else if containsSub vendor_lower "intel" then
    return parse_firmware_intel (← asStr firmware_str)
  else if containsSub vendor_lower "mellanox" then
    return parse_firmware_mellanox (← asStr firmware_str)
  else if containsSub vendor_lower "red hat" ∨ containsSub vendor_lower "virtio" then
    return { primary := firmware_str }
  else
    return parse_firmware_generic (← asStr firmware_str)

/-- `HardwareInfo._parse_system_model`. -/
def parse_system_model (product_str : Json) :
    Except String (Option String × Option String) := do
  if ¬ product_str.truthy then return (none, none)
  let s ← asStr product_str
  match systemModelMatch s with
  | none => return (some s, none)
  | some (g1, g2) =>
    let base_model := strTrim g1
    let paren_content := strTrim g2
    if containsSub paren_content "SKU=" then
      match skuSearch paren_content.data with
      | some g =>
        let sku := strTrim (String.mk g)
        if sku = "NotProvided" then return (some base_model, none)
        else return (some base_model, some sku)
      | none => return (some base_model, some paren_content)
    else return (some base_model, some paren_content)

/-- `HardwareInfo._is_virtual_function`. -/
def is_virtual_function (businfo : Json) : Except String Bool := do
  if ¬ businfo.truthy then return false
  let s ← asStr businfo
  if ¬ strStartsWith s "pci@" then return false
  match pciDeviceField s with
  | none => return false
  | some device_num => return (device_num ≠ "00")

/-- Models `for child in node.get("children", [])` on a node known to be a
dict: a missing key iterates nothing, a list yields its items, iterating a
string yields its characters, iterating a dict yields its keys, and any
other value raises `TypeError`. -/
def childrenIter (fields : List (String × Json)) : Except String (List Json) :=
  match lookupField fields "children" with
  | none => .ok []
  | some (.arr items) => .ok items
  | some (.str s) => .ok (s.data.map (fun c => .str (String.mk [c])))
  | some (.obj fs) => .ok (fs.map (fun kv => .str kv.1))
  | some _ => .error "TypeError: object is not iterable"

mutual

/-- `HardwareInfo._find_nodes_by_class`: pre-order collection of the nodes
whose `class` equals `class_name`.  A non-dict node contributes nothing. -/
def find_nodes_by_class (class_name : String) : Json → Except String (List Json)
  | .obj fields => do
    let here :=
      if jsonEqStr ((lookupField fields "class").getD .null) class_name then
        [Json.obj fields]
      else []
    let rest ← findChildrenScan class_name fields
    return here ++ rest
  | _ => return []
termination_by structural j => j

/-- Children traversal of `_find_nodes_by_class`: locate the first
`children` binding and recurse into its items.  Iterating a string or a
dict yields strings, for which the recursive call returns `[]`, so those
cases contribute nothing; non-iterable children raise `TypeError`. -/
def findChildrenScan (class_name : String) :
    List (String × Json) → Except String (List Json)
  | [] => return []
  | (k, v) :: rest =>
    if k = "children" then
      match v with
      | .arr items => findNodesList class_name items
      | .str _ => return []
      | .obj _ => return []
      | _ => Except.error "TypeError: object is not iterable"
    else findChildrenScan class_name rest
termination_by structural l => l

/-- Fold of `_find_nodes_by_class` over a list of children. -/
def findNodesList (class_name : String) : List Json → Except String (List Json)
  | [] => return []
  | child :: rest => do
    let a ← find_nodes_by_class class_name child
    let b ← findNodesList class_name rest
    return a ++ b
termination_by structural l => l

end

mutual

/-- The local `find_firmware` helper of `_extract_bios_info`: the first
node in pre-order with `id == "firmware"` and `class == "memory"`.  (The
source tests the returned dict for truthiness; a matching node always has
at least its `id` binding, so `Option` is faithful.) -/
def find_firmware : Json → Except String (Option Json)
  | .obj fields =>
    if jsonEqStr ((lookupField fields "id").getD .null) "firmware" &&
       jsonEqStr ((lookupField fields "class").getD .null) "memory" then
      return some (.obj fields)
    else fwChildrenScan fields
  | _ => return none
termination_by structural j => j

/-- Children traversal of `find_firmware` (same iteration model as
`findChildrenScan`). -/
def fwChildrenScan : List (String × Json) → Except String (Option Json)
  | [] => return none
  | (k, v) :: rest =>
    if k = "children" then
      match v with
      | .arr items => fwList items
      | .str _ => return none
      | .obj _ => return none
      | _ => Except.error "TypeError: object is not iterable"
    else fwChildrenScan rest
termination_by structural l => l

/-- First-match fold of `find_firmware` over a list of children. -/
def fwList : List Json → Except String (Option Json)
  | [] => return none
  | child :: rest => do
    match ← find_firmware child with
    | some n => return some n
    | none => fwList rest
termination_by structural l => l

end

/-- `HardwareInfo._extract_system_info` result. -/
structure SystemInfo where
  system_vendor : Json
  system_model : Option String
  system_sku : Option String
  system_family : Json

/-- `HardwareInfo._extract_system_info`.  The `.get` calls raise
`AttributeError` when `self.data` is not a dict. -/
def extract_system_info (data : Json) : Except String SystemInfo := do
  let product := (← pyGet data "product").getD .null
  let (model, sku) ← parse_system_model product
  let system_vendor := (← pyGet data "vendor").getD .null
  let config := (← pyGet data "configuration").getD (.obj [])
  let system_family :=
    match config with
    | .obj cfs => (lookupField cfs "family").getD .null
    | _ => .null
  return { system_vendor := system_vendor, system_model := model,
           system_sku := sku, system_family := system_family }

/-- `HardwareInfo._extract_bios_info` result. -/
structure BiosInfo where
  bios_vendor : Json
  bios_version : Json
  bios_date : Json
  bios_type : Option String

/-- `HardwareInfo._extract_bios_info`. -/
def extract_bios_info (data : Json) : Except String BiosInfo := do
  match ← find_firmware data with
  | none =>
    return { bios_vendor := .null, bios_version := .null, bios_date := .null,
             bios_type := none }
  | some node => do
    let fs ← asObj node
    let bios_vendor := (lookupField fs "vendor").getD .null
    let bios_version := (lookupField fs "version").getD .null
    let bios_date := (lookupField fs "date").getD .null
    let description := strUpper (← asStr ((lookupField fs "description").getD (.str "")))
    let capabilities := (lookupField fs "capabilities").getD (.obj [])
    let uefiCap :=
      match capabilities with
      | .obj cfs => cfs.any (fun kv => kv.1 = "uefi")
      | _ => false
    let bios_type :=
      if containsSub description "UEFI" || uefiCap then some "UEFI"
      else if containsSub description "EFI" then some "EFI"
      else some "BIOS"
    return { bios_vendor := bios_vendor, bios_version := bios_version,
             bios_date := bios_date, bios_type := bios_type }

/-- `HardwareInfo._extract_cpu_info` result. -/
structure CpuInfo where
  cpu_vendor : Option String
  cpu_model : Json
  cpu_sockets : Nat
  cpu_total_cores : ℚ
  cpu_total_threads : ℚ
  cpu_frequency_mhz : Option Int

/-- Contribution of one truthy `configuration.cores`/`threads` value:
`int(v)` for strings (`ValueError` when not numeric), the number itself
otherwise; a truthy bool is the Python integer 1; other types make the
`+=` raise `TypeError`. -/
def coreVal (v : Json) : Except String ℚ :=
  match v with
  | .str s =>
    match pyInt s with
    | some n => pure (n : ℚ)
    | none => Except.error "ValueError: invalid literal for int"
  | .num q => pure q
  | .bool _ => pure 1
  | _ => Except.error "TypeError: unsupported operand type for +="

/-- One guarded accumulation of `_extract_cpu_info`'s loop body:
`if cores: total += int(cores) if isinstance(cores, str) else cores`. -/
def coreAccum (total : ℚ) (v : Json) : Except String ℚ :=
  if v.truthy then do
    pure (total + (← coreVal v))
  else pure total

/-- The cores/threads accumulation loop of `_extract_cpu_info`. -/
def sumCoresThreads : List Json → ℚ → ℚ → Except String (ℚ × ℚ)
  | [], c, t => pure (c, t)
  | cpu :: rest, c, t => do
    let cfs ← asObj cpu
    let config := (lookupField cfs "configuration").getD (.obj [])
    match config with
    | .obj cfg => do
      let c2 ← coreAccum c ((lookupField cfg "cores").getD .null)
      let t2 ← coreAccum t ((lookupField cfg "threads").getD .null)
      sumCoresThreads rest c2 t2
    | _ => sumCoresThreads rest c t

/-- `HardwareInfo._extract_cpu_info`. -/
def extract_cpu_info (data : Json) : Except String CpuInfo := do
  let cpus ← find_nodes_by_class "processor" data
  match cpus with
  | [] =>
    return { cpu_vendor := none, cpu_model := .null, cpu_sockets := 0,
             cpu_total_cores := 0, cpu_total_threads := 0,
             cpu_frequency_mhz := none }
  | first_cpu :: _ => do
    let ffs ← asObj first_cpu
    let (cpu_vendor, _) ← parse_vendor_string ((lookupField ffs "vendor").getD .null)
    let cpu_model := (lookupField ffs "product").getD .null
    let cpu_freq_hz := (lookupField ffs "size").getD .null
    let cpu_frequency_mhz ←
      if cpu_freq_hz.truthy then
        match cpu_freq_hz with
        | .num q => pure (some (pyTrunc (q / 1000000)))
        | .bool _ => pure (some (pyTrunc ((1 : ℚ) / 1000000)))
        | _ => Except.error "TypeError: unsupported operand type for /"
      else pure none
    let (total_cores, total_threads) ← sumCoresThreads cpus 0 0
    return { cpu_vendor := cpu_vendor, cpu_model := cpu_model,
             cpu_sockets := cpus.length, cpu_total_cores := total_cores,
             cpu_total_threads := total_threads,
             cpu_frequency_mhz := cpu_frequency_mhz }

/-- The DIMM-counting loop of `_extract_memory_info`: direct children of
class `memory` with a truthy `size`. -/
def countDimms : List Json → Except String Nat
  | [] => pure 0
  | child :: rest => do
    let cls ← pyGet child "class"
    let isDimm ←
      if jsonEqStr (cls.getD .null) "memory" then do
        pure ((← pyGet child "size").getD .null).truthy
      else pure false
    let restCount ← countDimms rest
    pure ((if isDimm then 1 else 0) + restCount)

/-- Size contribution of one found memory node (the body of the loop of
`_extract_memory_info` that accumulates `total_bytes`). -/
def memSizeContribution (fields : List (String × Json)) : Except String ℚ := do
  let node_id := (lookupField fields "id").getD (.str "")
  if jsonEqStr node_id "memory" ||
     (match node_id with | .str s => strStartsWith s "memory:" | _ => false) then
    let description := (lookupField fields "description").getD (.str "")
    let sysMem ← pyInStr "System Memory" description
    if sysMem || jsonEqStr node_id "memory" then
      let size := (lookupField fields "size").getD .null
      if size.truthy then
        match size with
        | .num q => pure q
        | .bool _ => pure 1
        | _ => Except.error "TypeError: unsupported operand type for +="
      else pure 0
    else pure 0
  else pure 0

/-- The per-node loop of `_extract_memory_info`, accumulating
`(total_bytes, dimm_count)`. -/
def memFold : List Json → ℚ × Nat → Except String (ℚ × Nat)
  | [], acc => pure acc
  | mem_node :: rest, (total, dimms) => do
    let fs ← asObj mem_node
    let contrib ← memSizeContribution fs
    let children ← childrenIter fs
    let dimmAdd ← countDimms children
    memFold rest (total + contrib, dimms + dimmAdd)

/-- `HardwareInfo._extract_memory_info`, returning
`(memory_total_gb, memory_dimm_count)`. -/
def extract_memory_info (data : Json) : Except String (ℚ × Nat) := do
  let memory_nodes ← find_nodes_by_class "memory" data
  let (total_bytes, dimm_count) ← memFold memory_nodes (0, 0)
  let total_gb := if total_bytes ≠ 0 then pyRound1 (total_bytes / 1024 ^ 3) else 0
  return (total_gb, dimm_count)

/-- `HardwareInfo._parse_storage_device`.  `None` is returned for nodes
with no truthy `size`.  `description.lower()` is evaluated lazily exactly
as the source's short-circuiting `or` does: a node whose `businfo` contains
`nvme` never touches the description. -/
def parse_storage_device (fields : List (String × Json)) :
    Except String (Option StorageDevice) := do
  let size := (lookupField fields "size").getD .null
  if ¬ size.truthy then return none
  let businfoJ := (lookupField fields "businfo").getD (.str "")
  let descJ := (lookupField fields "description").getD (.str "")
  let bl := strLower (← asStr businfoJ)
  let device_type ←
    if containsSub bl "nvme" then pure "nvme"
    else do
      let dls := strLower (← asStr descJ)
      if containsSub dls "nvme" then pure "nvme"
      else if containsSub bl "scsi" then pure "scsi"
      else if containsSub bl "virtio" then pure "virtio"
      else if containsSub bl "sata" || containsSub dls "ata" then pure "sata"
      else pure "unknown"
  let (vendor, vendor_id0) ← parse_vendor_string ((lookupField fields "vendor").getD .null)
  let (model, prod_vendor_id, device_id) ←
    parse_product_string ((lookupField fields "product").getD .null)
  let vendor_id := match vendor_id0 with | some v => some v | none => prod_vendor_id
  let size_gb ←
    match size with
    | .num q => pure (pyRound1 (q / 1024 ^ 3))
    | .bool _ => pure (pyRound1 ((1 : ℚ) / 1024 ^ 3))
    | _ => Except.error "TypeError: unsupported operand type for /"
  let version := (lookupField fields "version").getD .null
  let firmware0 := (lookupField fields "firmware").getD .null
  let config := (lookupField fields "configuration").getD (.obj [])
  let firmware :=
    match config with
    | .obj cfs =>
      if ¬ firmware0.truthy then (lookupField cfs "firmware").getD .null else firmware0
    | _ => firmware0
  return some { type := device_type, description := descJ, vendor := vendor,
                vendor_id := vendor_id, model := model, device_id := device_id,
                size_gb := size_gb, version := version, firmware := firmware,
                businfo := businfoJ }

/-- The first loop of `_extract_storage_devices`: parse every node found by
the global `disk`-class search, keeping the non-`None` results. -/
def parseDiskList : List Json → Except String (List StorageDevice)
  | [] => pure []
  | d :: rest => do
    let fs ← asObj d
    let info ← parse_storage_device fs
    let restL ← parseDiskList rest
    pure ((match info with | some i => [i] | none => []) ++ restL)

/-- Inner loop of the second phase of `_extract_storage_devices`: the
`volume`/`disk`-class children of one storage node. -/
def parseVolChildren : List Json → Except String (List StorageDevice)
  | [] => pure []
  | child :: rest => do
    let here ←
      match child with
      | .obj cfs =>
        if jsonEqStr ((lookupField cfs "class").getD .null) "volume" ||
           jsonEqStr ((lookupField cfs "class").getD .null) "disk" then do
          let info ← parse_storage_device cfs
          pure (match info with | some i => [i] | none => [])
        else pure []
      | _ => Except.error "AttributeError: object has no attribute get"
    let restL ← parseVolChildren rest
    pure (here ++ restL)

/-- Outer loop of the second phase of `_extract_storage_devices`, over the
nodes found by the `storage`-class search. -/
def parseStorageChildren : List Json → Except String (List StorageDevice)
  | [] => pure []
  | s :: rest => do
    let fs ← asObj s
    let children ← childrenIter fs
    let here ← parseVolChildren children
    let restL ← parseStorageChildren rest
    pure (here ++ restL)

/-- `HardwareInfo._extract_storage_devices`: the devices parsed from the
global `disk`-class search, followed by the devices parsed from the
`volume`/`disk` children of `storage`-class nodes.  No deduplication. -/
def extract_storage_devices (data : Json) : Except String (List StorageDevice) := do
  let disk_nodes ← find_nodes_by_class "disk" data
  let storage_nodes ← find_nodes_by_class "storage" data
  let a ← parseDiskList disk_nodes
  let b ← parseStorageChildren storage_nodes
  return a ++ b

/-- The `logicalname` fallback loop of `_parse_network_interface`: scan the
children, remembering the latest `network`-class child's `logicalname`
(even when falsy) and stopping at the first truthy one. -/
def scanLogicalName (current : Json) : List Json → Except String Json
  | [] => pure current
  | child :: rest => do
    let cls ← pyGet child "class"
    if jsonEqStr (cls.getD .null) "network" then do
      let lnv := (← pyGet child "logicalname").getD .null
      if lnv.truthy then pure lnv else scanLogicalName lnv rest
    else scanLogicalName current rest

/-- The capability-key fallback of the speed extraction: the first key
containing `gbit` whose digits parse. -/
def capSpeedScan : List (String × Json) → Option Int
  | [] => none
  | (key, _) :: rest =>
    let kl := strLower key
    if containsSub kl "gbit" then
      match gbitSearch kl.data with
      | some n => some ((n : Int) * 1000)
      | none => capSpeedScan rest
    else capSpeedScan rest

/-- The subsystem-id extraction shared by `_parse_network_interface` and
`_parse_pci_device`: `subvendor`/`subdevice` falling back to
`vendor`/`device`, `0x` stripped, uppercased.  A truthy non-string raises
at `.replace`. -/
def extractSubIds (config : Json) : Except String (Option String × Option String) := do
  match config with
  | .obj cfs =>
    let sub_vendor := pyOr ((lookupField cfs "subvendor").getD .null)
        ((lookupField cfs "vendor").getD .null)
    let sub_device := pyOr ((lookupField cfs "subdevice").getD .null)
        ((lookupField cfs "device").getD .null)
    let subvendor_id ←
      if sub_vendor.truthy then do
        pure (some (strUpper (String.mk (remove0x (← asStr sub_vendor).data))))
      else pure none
    let subdevice_id ←
      if sub_device.truthy then do
        pure (some (strUpper (String.mk (remove0x (← asStr sub_device).data))))
      else pure none
    return (subvendor_id, subdevice_id)
  | _ => return (none, none)

/-- `HardwareInfo._parse_network_interface`. -/
def parse_network_interface (fields : List (String × Json)) :
    Except String NetworkInterface := do
  let description := (lookupField fields "description").getD (.str "")
  let (vendor, vendor_id0) ← parse_vendor_string ((lookupField fields "vendor").getD .null)
  let (model, prod_vendor_id, device_id) ←
    parse_product_string ((lookupField fields "product").getD .null)
  let vendor_id := match vendor_id0 with | some v => some v | none => prod_vendor_id
  let logical_name0 := (lookupField fields "logicalname").getD .null
  let logical_name ←
    if ¬ logical_name0.truthy then do
      scanLogicalName logical_name0 (← childrenIter fields)
    else pure logical_name0
  let config := (lookupField fields "configuration").getD (.obj [])
  let (link_status, duplex, autonegotiation) :=
    match config with
    | .obj cfg =>
      let link_raw := (lookupField cfg "link").getD .null
      let autoneg_raw := (lookupField cfg "autonegotiation").getD .null
      (if jsonEqStr link_raw "yes" then some true
       else if jsonEqStr link_raw "no" then some false else none,
       (lookupField cfg "duplex").getD .null,
       if jsonEqStr autoneg_raw "on" then some true
       else if jsonEqStr autoneg_raw "off" then some false else none)
    | _ => (none, .null, none)
  let speed1 ←
    match config with
    | .obj cfg => do
      let speed_str := (lookupField cfg "speed").getD .null
      if speed_str.truthy then do
        match speedSearch (← asStr speed_str).data with
        | some (value, isGbit) =>
          pure (some (if isGbit then (value : Int) * 1000 else (value : Int)))
        | none => pure (none : Option Int)
      else pure (none : Option Int)
    | _ => pure (none : Option Int)
  let speed_mbps ←
    if speed1 = none ∨ speed1 = some 0 then do
      match (lookupField fields "capabilities").getD (.obj []) with
      | .obj caps => pure (match capSpeedScan caps with
          | some v => some v
          | none => speed1)
      | _ => pure speed1
    else pure speed1
  let (driver, firmware_raw, driver_version, subvendor_id, subdevice_id) ←
    match config with
    | .obj cfg => do
      let (sv, sd) ← extractSubIds (.obj cfg)
      pure ((lookupField cfg "driver").getD .null,
            (lookupField cfg "firmware").getD .null,
            (lookupField cfg "driverversion").getD .null, sv, sd)
    | _ => pure (.null, .null, .null, none, none)
  let businfo := (lookupField fields "businfo").getD (.str "")
  let firmware_parsed ← parse_firmware_string firmware_raw vendor
  let is_vf ← is_virtual_function businfo
  return { description := description, vendor := vendor, vendor_id := vendor_id,
           model := model, device_id := device_id, subvendor_id := subvendor_id,
           subdevice_id := subdevice_id, logical_name := logical_name,
           link_status := link_status, duplex := duplex,
           autonegotiation := autonegotiation, speed_mbps := speed_mbps,
           driver := driver, driver_version := driver_version,
           firmware := firmware_raw, firmware_version := firmware_parsed.primary,
           is_virtual_function := is_vf, businfo := businfo,
           firmware_bootcode :=
             if firmware_parsed.bootcode.truthy then some firmware_parsed.bootcode else none,
           firmware_nvm :=
             if firmware_parsed.nvm.truthy then some firmware_parsed.nvm else none,
           firmware_psid :=
             if firmware_parsed.psid.truthy then some firmware_parsed.psid else none,
           firmware_ncsi :=
             if firmware_parsed.ncsi.truthy then some firmware_parsed.ncsi else none }

/-- The loop of `_extract_network_interfaces` (every parsed interface is a
non-empty dict, hence truthy, so all are appended). -/
def netList : List Json → Except String (List NetworkInterface)
  | [] => pure []
  | n :: rest =>
    match n with
    | .obj fs => do
      let i ← parse_network_interface fs
      let restL ← netList rest
      pure (i :: restL)
    | _ => Except.error "AttributeError: object has no attribute get"

/-- `HardwareInfo._extract_network_interfaces`. -/
def extract_network_interfaces (data : Json) : Except String (List NetworkInterface) := do
  netList (← find_nodes_by_class "network" data)

/-- `HardwareInfo._categorize_pci_device`.  The description is lowercased
before any test, so a non-string description raises even for skipped
classes, as in the source. -/
def categorize_pci_device (fields : List (String × Json)) :
    Except String (Option String) := do
  let node_class := (lookupField fields "class").getD (.str "")
  let description := strLower (← asStr ((lookupField fields "description").getD (.str "")))
  if ["processor", "memory", "disk", "system"].any (fun c => jsonEqStr node_class c) then
    return none
  else if jsonEqStr node_class "network" then return some "network"
  else if ["accelerator", "processing accelerators", "fpga", "programmable logic",
           "3d controller", "gpu", "signal processing", "dsp"].any
          (fun kw => containsSub description kw) then
    return some "accelerator"
  else if jsonEqStr node_class "storage" then return some "storage"
  else if containsSub description "usb" && jsonEqStr node_class "bus" then
    return some "usb"
  else if jsonEqStr node_class "bridge" then return some "other"
  else if jsonEqStr node_class "bus" then return some "other"
  else if jsonEqStr node_class "display" then return some "other"
  else if jsonEqStr node_class "multimedia" then return some "other"
  else if jsonEqStr node_class "generic" then return some "other"
  else return some "other"

/-- `HardwareInfo._parse_pci_device`. -/
def parse_pci_device (fields : List (String × Json)) : Except String PciDevice := do
  let description := (lookupField fields "description").getD (.str "")
  let (vendor, vendor_id0) ← parse_vendor_string ((lookupField fields "vendor").getD .null)
  let (model, prod_vendor_id, device_id) ←
    parse_product_string ((lookupField fields "product").getD .null)
  let vendor_id := match vendor_id0 with | some v => some v | none => prod_vendor_id
  let businfo := (lookupField fields "businfo").getD (.str "")
  let logical_name := (lookupField fields "logicalname").getD .null
  let config := (lookupField fields "configuration").getD (.obj [])
  let (subvendor_id, subdevice_id) ← extractSubIds config
  let is_vf ← is_virtual_function businfo
  return { description := description, vendor := vendor, vendor_id := vendor_id,
           model := model, device_id := device_id, subvendor_id := subvendor_id,
           subdevice_id := subdevice_id, is_virtual_function := is_vf,
           businfo := businfo, logical_name := logical_name }

mutual

/-- `HardwareInfo._categorize_pci_recursive`, returning the categorized
devices as a flat `(category, device)` list in append order (the source
appends to per-category lists of a shared dict; bucketing the flat list by
category reproduces those lists). -/
def categorize_pci_recursive : Json → Except String (List (String × PciDevice))
  | .obj fields => do
    let businfo ← asStr ((lookupField fields "businfo").getD (.str ""))
    let head ←
      if strStartsWith businfo "pci@" then do
        match ← categorize_pci_device fields with
        | some category => do
          let device_info ← parse_pci_device fields
          pure [(category, device_info)]
        | none => pure []
      else pure []
    let tail ← pciChildrenScan fields
    return head ++ tail
  | _ => return []
termination_by structural j => j

/-- Children traversal of `_categorize_pci_recursive` (same iteration model
as `findChildrenScan`). -/
def pciChildrenScan : List (String × Json) → Except String (List (String × PciDevice))
  | [] => return []
  | (k, v) :: rest =>
    if k = "children" then
      match v with
      | .arr items => pciList items
      | .str _ => return []
      | .obj _ => return []
      | _ => Except.error "TypeError: object is not iterable"
    else pciChildrenScan rest
termination_by structural l => l

/-- Fold of `_categorize_pci_recursive` over a list of children. -/
def pciList : List Json → Except String (List (String × PciDevice))
  | [] => return []
  | child :: rest => do
    let a ← categorize_pci_recursive child
    let b ← pciList rest
    return a ++ b
termination_by structural l => l

end

/-- `HardwareInfo._extract_pci_devices` result. -/
structure PciDevices where
  storage : List PciDevice
  network : List PciDevice
  usb : List PciDevice
  accelerator : List PciDevice
  other : List PciDevice

/-- `HardwareInfo._extract_pci_devices`. -/
def extract_pci_devices (data : Json) : Except String PciDevices := do
  let flat ← categorize_pci_recursive data
  return { storage := (flat.filter (fun p => p.1 = "storage")).map Prod.snd,
           network := (flat.filter (fun p => p.1 = "network")).map Prod.snd,
           usb := (flat.filter (fun p => p.1 = "usb")).map Prod.snd,
           accelerator := (flat.filter (fun p => p.1 = "accelerator")).map Prod.snd,
           other := (flat.filter (fun p => p.1 = "other")).map Prod.snd }

/-- `HardwareInfo.parse`: assemble the flat profile, in the source's
`result.update` order. -/
def parse (hw : HardwareInfo) : Except String CanonicalProfile := do
  let sys ← extract_system_info hw.data
  let bios ← extract_bios_info hw.data
  let cpu ← extract_cpu_info hw.data
  let (memory_total_gb, memory_dimm_count) ← extract_memory_info hw.data
  let storage_devices ← extract_storage_devices hw.data
  let network_interfaces ← extract_network_interfaces hw.data
  let pci ← extract_pci_devices hw.data
  return { node := hw.node,
           system_vendor := sys.system_vendor, system_model := sys.system_model,
           system_sku := sys.system_sku, system_family := sys.system_family,
           bios_vendor := bios.bios_vendor, bios_version := bios.bios_version,
           bios_date := bios.bios_date, bios_type := bios.bios_type,
           cpu_vendor := cpu.cpu_vendor, cpu_model := cpu.cpu_model,
           cpu_sockets := cpu.cpu_sockets,
           cpu_total_cores := cpu.cpu_total_cores,
           cpu_total_threads := cpu.cpu_total_threads,
           cpu_frequency_mhz := cpu.cpu_frequency_mhz,
           memory_total_gb := memory_total_gb,
           memory_dimm_count := memory_dimm_count,
           storage_devices := storage_devices,
           network_interfaces := network_interfaces,
           pci_storage_controllers := pci.storage,
           pci_network_controllers := pci.network,
           pci_usb_controllers := pci.usb,
           pci_accelerators := pci.accelerator,
           pci_other_devices := pci.other }

/-- The module-level `normalize` of `normalization_jobs_extra_hardware.py`:
`ValueError` from the constructor is caught and turned into `None`; any
error raised by `parse` itself propagates. -/
def normalize (input_name : String) (input_data : Json) :
    Except String (Option CanonicalProfile) :=
  match init input_name input_data with
  | .error _ => .ok none
  | .ok hw => (parse hw).map some

end HardwareInfo

/-! ## Spec-side definitions used by the claim statements

These definitions render phrases of the specification (not the source);
they are only compared against the source-derived definitions above. -/

/-- Modelled from the spec's words (claim C2): a memory id "exactly
`memory` or of the form `memory:<n>`", reading `<n>` as a number: the
prefix `memory:` followed by a non-empty digit string. -/
def specMemoryIdForm (s : String) : Bool :=
  s == "memory" ||
    (strStartsWith s "memory:" && !(s.data.drop 7).isEmpty &&
     (s.data.drop 7).all Char.isDigit)

/-- Modelled from the spec's words (claim C6): the contribution of
`configuration.<key>` to a CPU total — "accepted as decimal string or
number, missing treated as 0". -/
def specCoreContribution (cpu : Json) (key : String) : ℚ :=
  match cpu with
  | .obj fs =>
    match lookupField fs "configuration" with
    | some (.obj cfg) =>
      match lookupField cfg key with
      | some (.num q) => q
      | some (.str s) => match pyInt s with | some n => (n : ℚ) | none => 0
      | _ => 0
    | _ => 0
  | _ => 0

/-- Well-formedness of one `cores`/`threads` entry for claim C6: absent, a
number, or a decimal string. -/
def coreEntryOk (v : Option Json) : Bool :=
  match v with
  | none => true
  | some (.num _) => true
  | some (.str s) => (pyInt s).isSome
  | some _ => false

/-- Well-formedness of one processor node for claim C6: a dict whose
`configuration`, when a dict, has well-formed `cores`/`threads` entries
(a non-dict `configuration` is skipped by the source and contributes 0). -/
def cpuNodeWf (cpu : Json) : Bool :=
  match cpu with
  | .obj fs =>
    match lookupField fs "configuration" with
    | none => true
    | some (.obj cfg) =>
      coreEntryOk (lookupField cfg "cores") && coreEntryOk (lookupField cfg "threads")
    | some _ => true
  | _ => false

/-- A `vendor` entry the vendor parser accepts without raising: absent, a
string, or falsy. -/
def vendorEntryOk (v : Option Json) : Bool :=
  match v with
  | none => true
  | some (.str _) => true
  | some j => !j.truthy

/-- A `size` entry the frequency computation accepts without raising:
absent, a number, or falsy. -/
def sizeEntryOk (v : Option Json) : Bool :=
  match v with
  | none => true
  | some (.num _) => true
  | some j => !j.truthy

/-- A DIMM child node for the claim-C2 scenario: class `memory` with a
given id and size. -/
def dimmNode (id : String) (size : ℚ) : Json :=
  .obj [("id", .str id), ("class", .str "memory"), ("size", .num size)]

/-- A system-memory node for the claim-C2 scenario: 256 GiB
(274877906944 bytes) with two children. -/
def sysMemNode (id desc : String) (dimms : List Json) : Json :=
  .obj [("id", .str id), ("class", .str "memory"), ("description", .str desc),
        ("size", .num 274877906944), ("children", .arr dimms)]

/-- The claim-C2 scenario data: a root of class `system` with exactly
two memory nodes `memory:0`/`memory:1` of 256 GiB each. -/
def memScenarioData (d0 d1 : String) (dimms0 dimms1 : List Json) : Json :=
  .obj [("id", .str "machine"), ("class", .str "system"),
        ("children", .arr [sysMemNode "memory:0" d0 dimms0,
                           sysMemNode "memory:1" d1 dimms1])]

/-- The claim-C2 scenario capture: the scenario data in the DCI wrapper. -/
def memScenarioCapture (nodeName d0 d1 : String) (dimms0 dimms1 : List Json) : Json :=
  .obj [("hardware", .obj [("node", .str nodeName),
    ("data", memScenarioData d0 d1 dimms0 dimms1)])]

/-- A processor node for the claim-C6 scenario: string-valued `cores` and
`threads` in its configuration. -/
def cpuScenarioNode (cores threads : String) : Json :=
  .obj [("id", .str "cpu"), ("class", .str "processor"),
        ("vendor", .str "Intel Corp."),
        ("configuration", .obj [("cores", .str cores), ("threads", .str threads)])]

/-- The claim-C6 scenario data: a root of class `system` with two identical
processor nodes. -/
def cpuScenarioData (cores threads : String) : Json :=
  .obj [("id", .str "machine"), ("class", .str "system"),
        ("children", .arr [cpuScenarioNode cores threads,
                           cpuScenarioNode cores threads])]

/-- A disk node for the claim-C10 scenario: class `disk` with a 1 GiB
size, directly under a `storage` node. -/
def diskScenarioNode : Json :=
  .obj [("id", .str "disk0"), ("class", .str "disk"), ("size", .num 1073741824)]

/-- A storage controller for the claim-C10 scenario with the disk as its
only child. -/
def storageScenarioNode : Json :=
  .obj [("id", .str "storage0"), ("class", .str "storage"),
        ("children", .arr [diskScenarioNode])]

/-- The claim-C10 scenario data: a root of class `system` holding the
storage controller. -/
def storageScenarioData : Json :=
  .obj [("id", .str "machine"), ("class", .str "system"),
        ("children", .arr [storageScenarioNode])]

/-- The device record `_parse_storage_device` produces for
`diskScenarioNode`. -/
def diskScenarioInfo : StorageDevice :=
  { type := "unknown", description := .str "", vendor := none,
    vendor_id := none, model := none, device_id := none,
    size_gb := pyRound1 (1073741824 / 1024 ^ 3), version := .null,
    firmware := .null, businfo := .str "" }

/-- Claim-C1 fixture: a capture whose processor carries a non-numeric
`cores` string. -/
def badCoresData : Json :=
  .obj [("id", .str "machine"), ("class", .str "system"),
        ("children", .arr [.obj [("id", .str "cpu"), ("class", .str "processor"),
          ("configuration", .obj [("cores", .str "abc")])]])]

/-- Claim-C1 fixture: the bad-cores data in the DCI wrapper. -/
def badCoresCapture : Json :=
  .obj [("hardware", .obj [("node", .str "node1"), ("data", badCoresData)])]

/-- Claim-C1 fixture: a capture whose `data` value is a plain string. -/
def strDataCapture : Json :=
  .obj [("hardware", .obj [("node", .str "n"), ("data", .str "oops")])]

/-! ## Theorems -/

/-- Structure of a document accepted by the validator. -/
theorem is_valid_lshw_iff (d : Json) :
    LshwNormalizer.is_valid_lshw d = true ↔
      ∃ fs hfs dfs, d = .obj fs ∧
        lookupField fs "hardware" = some (.obj hfs) ∧
        lookupField hfs "data" = some (.obj dfs) ∧
        (lookupField dfs "id").isSome ∧ (lookupField dfs "class").isSome := by
  cases d with
  | obj fs =>
    simp only [LshwNormalizer.is_valid_lshw]
    cases h1 : lookupField fs "hardware" with
    | none => simp [h1]
    | some hw =>
      cases hw <;> simp [h1]
      rename_i hfs
      cases h2 : lookupField hfs "data" with
      | none => simp [h2]
      | some dd =>
        cases dd <;> simp [h2]
  | null => simp [LshwNormalizer.is_valid_lshw]
  | bool b => simp [LshwNormalizer.is_valid_lshw]
  | num q => simp [LshwNormalizer.is_valid_lshw]
  | str s => simp [LshwNormalizer.is_valid_lshw]
  | arr l => simp [LshwNormalizer.is_valid_lshw]

/-- C8.  The Type Normalizer's `normalize` is total (it is embedded as a
pure function: no operation in it can fail on JSON input) and returns the
empty mapping exactly when the input fails validation — a structured object
containing `hardware`, itself containing a structured `data` object with
both `id` and `class`; on valid input it returns the reconstructed wrapper
(which is never the empty mapping). -/
theorem claim_C8 (input_data : Json) :
    (LshwNormalizer.normalize input_data = Json.obj [] ↔
      LshwNormalizer.is_valid_lshw input_data = false)
    ∧ (LshwNormalizer.is_valid_lshw input_data = true →
        ∃ fs hfs d, input_data = Json.obj fs ∧
          lookupField fs "hardware" = some (Json.obj hfs) ∧
          lookupField hfs "data" = some d ∧
          LshwNormalizer.normalize input_data =
            Json.obj [("hardware", Json.obj
              [("node", (lookupField hfs "node").getD .null),
               ("data", LshwNormalizer.normalize_node d),
               ("error", (lookupField hfs "error").getD (.str ""))])]) := by
  cases hv : LshwNormalizer.is_valid_lshw input_data with
  | false =>
    refine ⟨by simp [LshwNormalizer.normalize, hv], ?_⟩
    intro h
    exact absurd h (by decide)
  | true =>
    obtain ⟨fs, hfs, dfs, rfl, h1, h2, _, _⟩ := (is_valid_lshw_iff _).mp hv
    refine ⟨?_, ?_⟩
    · simp [LshwNormalizer.normalize, hv, h1, h2]
    · intro _
      exact ⟨fs, hfs, .obj dfs, rfl, h1, h2, by
        simp [LshwNormalizer.normalize, hv, h1, h2]⟩

/-- Witness for C8 at a concrete valid capture and at a concrete invalid
one. -/
theorem claim_C8_witness :
    LshwNormalizer.normalize (Json.obj [("hardware", Json.obj [("data",
        Json.obj [("id", Json.str "x"), ("class", Json.str "system")])])])
      ≠ Json.obj []
    ∧ LshwNormalizer.normalize (Json.str "bogus") = Json.obj [] := by
  constructor
  · intro h
    have h2 := (claim_C8 (Json.obj [("hardware", Json.obj [("data",
        Json.obj [("id", Json.str "x"), ("class", Json.str "system")])])])).1.mp h
    exact absurd h2 (by decide)
  · exact (claim_C8 (Json.str "bogus")).1.mpr (by decide)

/-- `normalize_boolean` is idempotent. -/
theorem normalize_boolean_idem (v : Json) :
    LshwNormalizer.normalize_boolean (LshwNormalizer.normalize_boolean v) =
      LshwNormalizer.normalize_boolean v := by
  cases v with
  | str s =>
    simp only [LshwNormalizer.normalize_boolean]
    split_ifs with h1 h2
    · rfl
    · rfl
    · simp [LshwNormalizer.normalize_boolean, h1, h2]
  | null => rfl
  | bool b => rfl
  | num q => rfl
  | arr l => rfl
  | obj fs => rfl

/-- `normalize_numeric` is idempotent. -/
theorem normalize_numeric_idem (v : Json) :
    LshwNormalizer.normalize_numeric (LshwNormalizer.normalize_numeric v) =
      LshwNormalizer.normalize_numeric v := by
  cases v with
  | str s =>
    simp only [LshwNormalizer.normalize_numeric]
    cases h1 : pyInt s with
    | some n => simp [h1]
    | none =>
      cases h2 : pyFloat s with
      | some q => simp [h1, h2]
      | none => simp [LshwNormalizer.normalize_numeric, h1, h2]
  | null => rfl
  | bool b => rfl
  | num q => rfl
  | arr l => rfl
  | obj fs => rfl

/-- `normalize_logicalname` is idempotent. -/
theorem normalize_logicalname_idem (v : Json) :
    LshwNormalizer.normalize_logicalname (LshwNormalizer.normalize_logicalname v) =
      LshwNormalizer.normalize_logicalname v := by
  cases v <;> rfl

/-- A normalized capability value is either a boolean or the original
value. -/
theorem normalize_capability_value_cases (k : String) (v : Json) :
    (∃ b, LshwNormalizer.normalize_capability_value k v = .bool b) ∨
      LshwNormalizer.normalize_capability_value k v = v := by
  cases hc : (LshwNormalizer.capability_boolean_patterns.contains k || v.isBool) with
  | false =>
    refine Or.inr ?_
    simp only [LshwNormalizer.normalize_capability_value, hc, Bool.false_eq_true, if_false]
  | true =>
    cases v with
    | str s =>
      simp only [LshwNormalizer.normalize_capability_value, hc, if_true]
      split_ifs with h1 h2
      · simp only [LshwNormalizer.normalize_boolean]
        split_ifs with p1 p2
        · exact Or.inl ⟨true, rfl⟩
        · exact Or.inl ⟨false, rfl⟩
        · rcases h1 with h | h | h | h | h | h <;> rw [h] at p1 p2 <;> simp at p1 p2
      · exact Or.inl ⟨false, rfl⟩
      · exact Or.inl ⟨true, rfl⟩
    | null => exact Or.inr (by simp [LshwNormalizer.normalize_capability_value, hc])
    | bool b => exact Or.inr (by simp [LshwNormalizer.normalize_capability_value, hc])
    | num q => exact Or.inr (by simp [LshwNormalizer.normalize_capability_value, hc])
    | arr l => exact Or.inr (by simp [LshwNormalizer.normalize_capability_value, hc])
    | obj fs => exact Or.inr (by simp [LshwNormalizer.normalize_capability_value, hc])

/-- A boolean capability value passes through unchanged. -/
theorem normalize_capability_value_bool (k : String) (b : Bool) :
    LshwNormalizer.normalize_capability_value k (.bool b) = .bool b := by
  simp [LshwNormalizer.normalize_capability_value, Json.isBool]

/-- The per-key capability rewrite is idempotent. -/
theorem normalize_capability_value_idem (k : String) (v : Json) :
    LshwNormalizer.normalize_capability_value k
        (LshwNormalizer.normalize_capability_value k v) =
      LshwNormalizer.normalize_capability_value k v := by
  rcases normalize_capability_value_cases k v with ⟨b, hb⟩ | hv
  · rw [hb]; exact normalize_capability_value_bool k b
  · rw [hv]; exact hv

/-- `normalize_configuration` is idempotent. -/
theorem normalize_configuration_idem (l : List (String × Json)) :
    LshwNormalizer.normalize_configuration (LshwNormalizer.normalize_configuration l) =
      LshwNormalizer.normalize_configuration l := by
  induction l with
  | nil => rfl
  | cons kv rest ih =>
    obtain ⟨k, v⟩ := kv
    simp only [LshwNormalizer.normalize_configuration, List.map_cons] at ih ⊢
    rw [ih]
    by_cases hb : k ∈ LshwNormalizer.boolean_fields
    · simp [hb, normalize_boolean_idem]
    · by_cases hn : k ∈ LshwNormalizer.numeric_fields
      · simp [hb, hn, normalize_numeric_idem]
      · simp [hb, hn]

/-- `normalize_capabilities` is idempotent. -/
theorem normalize_capabilities_idem (l : List (String × Json)) :
    LshwNormalizer.normalize_capabilities (LshwNormalizer.normalize_capabilities l) =
      LshwNormalizer.normalize_capabilities l := by
  induction l with
  | nil => rfl
  | cons kv rest ih =>
    obtain ⟨k, v⟩ := kv
    simp only [LshwNormalizer.normalize_capabilities, List.map_cons] at ih ⊢
    rw [ih, normalize_capability_value_idem]

mutual

/-- The per-key dispatch of `normalize_node` is idempotent. -/
theorem normalize_field_idem : ∀ (k : String) (v : Json),
    LshwNormalizer.normalize_field k (LshwNormalizer.normalize_field k v) =
      LshwNormalizer.normalize_field k v
  | k, v => by
    by_cases hc : k = "configuration"
    · cases v with
      | obj fs =>
        simp only [LshwNormalizer.normalize_field, if_pos hc]
        rw [normalize_configuration_idem]
      | arr items =>
        simp only [LshwNormalizer.normalize_field, if_pos hc]
        rw [normalize_items_idem]
      | null => simp only [LshwNormalizer.normalize_field, if_pos hc]
      | bool b => simp only [LshwNormalizer.normalize_field, if_pos hc]
      | num q => simp only [LshwNormalizer.normalize_field, if_pos hc]
      | str s => simp only [LshwNormalizer.normalize_field, if_pos hc]
    · by_cases hcap : k = "capabilities"
      · cases v with
        | obj fs =>
          simp only [LshwNormalizer.normalize_field, if_neg hc, if_pos hcap]
          rw [normalize_capabilities_idem]
        | arr items =>
          simp only [LshwNormalizer.normalize_field, if_neg hc, if_pos hcap]
          rw [normalize_items_idem]
        | null => simp only [LshwNormalizer.normalize_field, if_neg hc, if_pos hcap]
        | bool b => simp only [LshwNormalizer.normalize_field, if_neg hc, if_pos hcap]
        | num q => simp only [LshwNormalizer.normalize_field, if_neg hc, if_pos hcap]
        | str s => simp only [LshwNormalizer.normalize_field, if_neg hc, if_pos hcap]
      · by_cases hln : k = "logicalname"
        · simp only [LshwNormalizer.normalize_field.eq_def, if_neg hc, if_neg hcap, if_pos hln]
          exact normalize_logicalname_idem v
        · by_cases hph : k = "physid"
          · simp only [LshwNormalizer.normalize_field.eq_def, if_neg hc, if_neg hcap,
              if_neg hln, if_pos hph]
            cases v <;> simp [pyStr]
          · by_cases hver : k = "version"
            · simp only [LshwNormalizer.normalize_field.eq_def, if_neg hc, if_neg hcap,
                if_neg hln, if_neg hph, if_pos hver]
              cases v <;> simp [pyStr]
            · by_cases hb : LshwNormalizer.boolean_fields.contains k = true
              · simp only [LshwNormalizer.normalize_field.eq_def, if_neg hc, if_neg hcap,
                  if_neg hln, if_neg hph, if_neg hver, if_pos hb]
                exact normalize_boolean_idem v
              · by_cases hn : LshwNormalizer.numeric_fields.contains k = true
                · simp only [LshwNormalizer.normalize_field.eq_def, if_neg hc, if_neg hcap,
                    if_neg hln, if_neg hph, if_neg hver, if_neg hb, if_pos hn]
                  exact normalize_numeric_idem v
                · cases v with
                  | obj fs =>
                    simp only [LshwNormalizer.normalize_field, if_neg hc, if_neg hcap,
                      if_neg hln, if_neg hph, if_neg hver, if_neg hb, if_neg hn]
                    rw [normalize_fields_idem]
                  | arr items =>
                    simp only [LshwNormalizer.normalize_field, if_neg hc, if_neg hcap,
                      if_neg hln, if_neg hph, if_neg hver, if_neg hb, if_neg hn]
                    rw [normalize_items_idem]
                  | null =>
                    simp only [LshwNormalizer.normalize_field, if_neg hc, if_neg hcap,
                      if_neg hln, if_neg hph, if_neg hver, if_neg hb, if_neg hn]
                  | bool b2 =>
                    simp only [LshwNormalizer.normalize_field, if_neg hc, if_neg hcap,
                      if_neg hln, if_neg hph, if_neg hver, if_neg hb, if_neg hn]
                  | num q =>
                    simp only [LshwNormalizer.normalize_field, if_neg hc, if_neg hcap,
                      if_neg hln, if_neg hph, if_neg hver, if_neg hb, if_neg hn]
                  | str s =>
                    simp only [LshwNormalizer.normalize_field, if_neg hc, if_neg hcap,
                      if_neg hln, if_neg hph, if_neg hver, if_neg hb, if_neg hn]
termination_by structural _k v => v

/-- The list walk of `normalize_node` is idempotent. -/
theorem normalize_items_idem : ∀ (l : List Json),
    LshwNormalizer.normalize_items (LshwNormalizer.normalize_items l) =
      LshwNormalizer.normalize_items l
  | [] => rfl
  | item :: rest => by
    cases item with
    | obj fs =>
      simp only [LshwNormalizer.normalize_items]
      rw [normalize_fields_idem, normalize_items_idem rest]
    | arr l2 =>
      simp only [LshwNormalizer.normalize_items]
      rw [normalize_items_idem l2, normalize_items_idem rest]
    | null => simp only [LshwNormalizer.normalize_items]; rw [normalize_items_idem rest]
    | bool b => simp only [LshwNormalizer.normalize_items]; rw [normalize_items_idem rest]
    | num q => simp only [LshwNormalizer.normalize_items]; rw [normalize_items_idem rest]
    | str s => simp only [LshwNormalizer.normalize_items]; rw [normalize_items_idem rest]
termination_by structural l => l

/-- The dict walk of `normalize_node` is idempotent. -/
theorem normalize_fields_idem : ∀ (l : List (String × Json)),
    LshwNormalizer.normalize_fields (LshwNormalizer.normalize_fields l) =
      LshwNormalizer.normalize_fields l
  | [] => rfl
  | (k, v) :: rest => by
    simp only [LshwNormalizer.normalize_fields]
    rw [normalize_field_idem k v, normalize_fields_idem rest]
termination_by structural l => l

end

/-- `normalize_node` is idempotent. -/
theorem normalize_node_idem (v : Json) :
    LshwNormalizer.normalize_node (LshwNormalizer.normalize_node v) =
      LshwNormalizer.normalize_node v := by
  cases v with
  | obj fs =>
    simp only [LshwNormalizer.normalize_node]
    rw [normalize_fields_idem]
  | arr items =>
    simp only [LshwNormalizer.normalize_node]
    rw [normalize_items_idem]
  | null => rfl
  | bool b => rfl
  | num q => rfl
  | str s => rfl

/-- Normalizing a dict rewrites each value in place: lookups commute with
the walk. -/
theorem lookupField_normalize_fields (fs : List (String × Json)) (key : String) :
    lookupField (LshwNormalizer.normalize_fields fs) key =
      (lookupField fs key).map (LshwNormalizer.normalize_field key) := by
  induction fs with
  | nil => rfl
  | cons kv rest ih =>
    obtain ⟨k, v⟩ := kv
    by_cases h : k = key
    · subst h
      simp [LshwNormalizer.normalize_fields, lookupField]
    · simp [LshwNormalizer.normalize_fields, lookupField, h, ih]

/-- C3.  Type normalization is idempotent: a second `normalize` pass, over
the wrapper that the first pass reconstructed (with its defaulted `node`
and `error` fields), returns the first pass's output unchanged, for every
input document. -/
theorem claim_C3 (input_data : Json) :
    LshwNormalizer.normalize (LshwNormalizer.normalize input_data) =
      LshwNormalizer.normalize input_data := by
  cases hv : LshwNormalizer.is_valid_lshw input_data with
  | false =>
    simp only [LshwNormalizer.normalize, hv, Bool.false_eq_true, if_false]
    rfl
  | true =>
    obtain ⟨fs, hfs, dfs, rfl, h1, h2, hid, hcls⟩ := (is_valid_lshw_iff _).mp hv
    have hn : LshwNormalizer.normalize (.obj fs) =
        .obj [("hardware", .obj
          [("node", (lookupField hfs "node").getD .null),
           ("data", LshwNormalizer.normalize_node (.obj dfs)),
           ("error", (lookupField hfs "error").getD (.str ""))])] := by
      simp [LshwNormalizer.normalize, hv, h1, h2]
    rw [hn]
    have hdata : LshwNormalizer.normalize_node (.obj dfs) =
        .obj (LshwNormalizer.normalize_fields dfs) := rfl
    have hv2 : LshwNormalizer.is_valid_lshw
        (.obj [("hardware", .obj
          [("node", (lookupField hfs "node").getD .null),
           ("data", LshwNormalizer.normalize_node (.obj dfs)),
           ("error", (lookupField hfs "error").getD (.str ""))])]) = true := by
      rw [is_valid_lshw_iff]
      refine ⟨[("hardware", .obj
          [("node", (lookupField hfs "node").getD .null),
           ("data", LshwNormalizer.normalize_node (.obj dfs)),
           ("error", (lookupField hfs "error").getD (.str ""))])],
        [("node", (lookupField hfs "node").getD .null),
         ("data", LshwNormalizer.normalize_node (.obj dfs)),
         ("error", (lookupField hfs "error").getD (.str ""))],
        LshwNormalizer.normalize_fields dfs, rfl, rfl, rfl, ?_, ?_⟩
      · rw [lookupField_normalize_fields]
        cases hx : lookupField dfs "id" with
        | none => rw [hx] at hid; simp at hid
        | some j => simp
      · rw [lookupField_normalize_fields]
        cases hx : lookupField dfs "class" with
        | none => rw [hx] at hcls; simp at hcls
        | some j => simp
    have hfinal : LshwNormalizer.normalize (.obj [("hardware", .obj
        [("node", (lookupField hfs "node").getD .null),
         ("data", LshwNormalizer.normalize_node (.obj dfs)),
         ("error", (lookupField hfs "error").getD (.str ""))])]) =
      .obj [("hardware", .obj
        [("node", (lookupField hfs "node").getD .null),
         ("data", LshwNormalizer.normalize_node (LshwNormalizer.normalize_node (.obj dfs))),
         ("error", (lookupField hfs "error").getD (.str ""))])] := by
      simp only [LshwNormalizer.normalize, hv2, if_true]
      rfl
    rw [hfinal, normalize_node_idem]

/-- C4, counterexample.  The claim states that a capability string
containing a negation marker *in its lowercased form* becomes `false`; the
source checks the lowercased *stripped* form.  For the known-boolean key
`pm` and the value `"x no "`, the lowercased form contains `" no "`, yet
the source yields `true` (after stripping, the trailing space of the
marker is gone). -/
theorem claim_C4_counterexample :
    LshwNormalizer.capability_boolean_patterns.contains "pm" = true
    ∧ containsSub (strLower "x no ") " no " = true
    ∧ LshwNormalizer.normalize_capability_value "pm" (.str "x no ") = .bool true := by
  exact ⟨by decide, by decide, rfl⟩

/-- C4, as amended: the negation markers are looked for in the lowercased,
whitespace-stripped form of the value.  For every key in the
known-boolean-capability set and string value: explicit
`true`/`false`/`yes`/`no`/`1`/`0` tokens (case-insensitive, stripped)
convert to the corresponding boolean; any other string containing a
negation marker in its lowercased stripped form becomes `false`; any other
string becomes `true`; keys outside the set with non-boolean values pass
through unchanged. -/
theorem claim_C4 (k s : String) (v : Json) :
    (LshwNormalizer.capability_boolean_patterns.contains k = true →
      ((strTrim (strLower s) = "true" ∨ strTrim (strLower s) = "yes" ∨
          strTrim (strLower s) = "1" →
          LshwNormalizer.normalize_capability_value k (.str s) = .bool true)
       ∧ (strTrim (strLower s) = "false" ∨ strTrim (strLower s) = "no" ∨
            strTrim (strLower s) = "0" →
          LshwNormalizer.normalize_capability_value k (.str s) = .bool false)
       ∧ (¬(strTrim (strLower s) = "true" ∨ strTrim (strLower s) = "false" ∨
             strTrim (strLower s) = "yes" ∨ strTrim (strLower s) = "no" ∨
             strTrim (strLower s) = "1" ∨ strTrim (strLower s) = "0") →
            (LshwNormalizer.negative_words.any
                (fun neg => containsSub (strTrim (strLower s)) neg) = true →
              LshwNormalizer.normalize_capability_value k (.str s) = .bool false)
            ∧ (LshwNormalizer.negative_words.any
                (fun neg => containsSub (strTrim (strLower s)) neg) = false →
              LshwNormalizer.normalize_capability_value k (.str s) = .bool true))))
    ∧ (LshwNormalizer.capability_boolean_patterns.contains k = false →
        v.isBool = false →
        LshwNormalizer.normalize_capability_value k v = v) := by
  constructor
  · intro hk
    have hcond : (LshwNormalizer.capability_boolean_patterns.contains k ||
        Json.isBool (.str s)) = true := by rw [hk]; rfl
    refine ⟨?_, ?_, ?_⟩
    · intro h
      simp only [LshwNormalizer.normalize_capability_value, hcond, if_true]
      rw [if_pos (by tauto)]
      simp only [LshwNormalizer.normalize_boolean]
      rw [if_pos (by tauto)]
    · intro h
      simp only [LshwNormalizer.normalize_capability_value, hcond, if_true]
      rw [if_pos (by tauto)]
      simp only [LshwNormalizer.normalize_boolean]
      have hne : ¬(strTrim (strLower s) = "true" ∨ strTrim (strLower s) = "yes" ∨
          strTrim (strLower s) = "1" ∨ strTrim (strLower s) = "on") := by
        rcases h with h | h | h <;> rw [h] <;> decide
      rw [if_neg hne, if_pos (by tauto)]
    · intro h
      constructor
      · intro hneg
        simp only [LshwNormalizer.normalize_capability_value, hcond, if_true]
        rw [if_neg (by tauto), if_pos hneg]
      · intro hneg
        simp only [LshwNormalizer.normalize_capability_value, hcond, if_true]
        rw [if_neg (by tauto), if_neg (by simp [hneg])]
  · intro hk hv
    have hcond : (LshwNormalizer.capability_boolean_patterns.contains k ||
        v.isBool) = false := by rw [hk, hv]; rfl
    simp only [LshwNormalizer.normalize_capability_value, hcond,
      Bool.false_eq_true, if_false]

/-- Witness for C4 at concrete keys and values: a token, a descriptive
negative, a descriptive positive, and a pass-through. -/
theorem claim_C4_witness :
    LshwNormalizer.normalize_capability_value "pm" (.str "Yes") = .bool true
    ∧ LshwNormalizer.normalize_capability_value "pm" (.str "power unsupported") = .bool false
    ∧ LshwNormalizer.normalize_capability_value "pm" (.str "Power Management") = .bool true
    ∧ LshwNormalizer.normalize_capability_value "zzz" (.str "Yes") = .str "Yes" := by
  refine ⟨((claim_C4 "pm" "Yes" .null).1 (by decide)).1 (by decide),
          ((((claim_C4 "pm" "power unsupported" .null).1 (by decide)).2.2) (by decide)).1 (by decide),
          ((((claim_C4 "pm" "Power Management" .null).1 (by decide)).2.2) (by decide)).2 (by decide),
          (claim_C4 "zzz" "Yes" (.str "Yes")).2 (by decide) (by decide)⟩

/-- C7.  The firmware parser selects exactly one grammar by
case-insensitive substring match on the vendor name, in the fixed priority
broadcom → intel → mellanox → (red hat | virtio) → generic; an absent
(`None` or empty) firmware string yields the all-`None` descriptor; and the
three vendor examples parse as the claim states. -/
theorem claim_C7 :
    (∀ v : Option String,
      HardwareInfo.parse_firmware_string .null v = .ok ⟨.null, .null, .null, .null, .null, .null⟩
      ∧ HardwareInfo.parse_firmware_string (.str "") v = .ok ⟨.null, .null, .null, .null, .null, .null⟩)
    ∧ (∀ (s : String) (v : Option String), s ≠ "" →
        containsSub (strLower (v.getD "")) "broadcom" = true →
        HardwareInfo.parse_firmware_string (.str s) v = .ok (HardwareInfo.parse_firmware_broadcom s))
    ∧ (∀ (s : String) (v : Option String), s ≠ "" →
        containsSub (strLower (v.getD "")) "broadcom" = false →
        containsSub (strLower (v.getD "")) "intel" = true →
        HardwareInfo.parse_firmware_string (.str s) v = .ok (HardwareInfo.parse_firmware_intel s))
    ∧ (∀ (s : String) (v : Option String), s ≠ "" →
        containsSub (strLower (v.getD "")) "broadcom" = false →
        containsSub (strLower (v.getD "")) "intel" = false →
        containsSub (strLower (v.getD "")) "mellanox" = true →
        HardwareInfo.parse_firmware_string (.str s) v = .ok (HardwareInfo.parse_firmware_mellanox s))
    ∧ (∀ (s : String) (v : Option String), s ≠ "" →
        containsSub (strLower (v.getD "")) "broadcom" = false →
        containsSub (strLower (v.getD "")) "intel" = false →
        containsSub (strLower (v.getD "")) "mellanox" = false →
        (containsSub (strLower (v.getD "")) "red hat" = true ∨
         containsSub (strLower (v.getD "")) "virtio" = true) →
        HardwareInfo.parse_firmware_string (.str s) v =
          .ok ⟨.str s, .null, .null, .null, .null, .null⟩)
    ∧ (∀ (s : String) (v : Option String), s ≠ "" →
        containsSub (strLower (v.getD "")) "broadcom" = false →
        containsSub (strLower (v.getD "")) "intel" = false →
        containsSub (strLower (v.getD "")) "mellanox" = false →
        containsSub (strLower (v.getD "")) "red hat" = false →
        containsSub (strLower (v.getD "")) "virtio" = false →
        HardwareInfo.parse_firmware_string (.str s) v = .ok (HardwareInfo.parse_firmware_generic s))
    ∧ HardwareInfo.parse_firmware_string (.str "FFV21.80.8 bc 5720-v1.39")
        (some "Broadcom Inc. and subsidiaries") =
      .ok ⟨.str "FFV21.80.8", .str "bc 5720-v1.39", .str "5720-v1.39", .null, .null, .null⟩
    ∧ HardwareInfo.parse_firmware_string (.str "4.20 0x8001778b 22.0.9")
        (some "Intel Corporation") =
      .ok ⟨.str "4.20", .str "NVM 22.0.9", .null, .str "22.0.9", .null, .null⟩
    ∧ HardwareInfo.parse_firmware_string (.str "14.32.2004 (DEL0000000015)")
        (some "Mellanox Technologies") =
      .ok ⟨.str "14.32.2004", .str "PSID: DEL0000000015", .null, .null, .str "DEL0000000015", .null⟩ := by
  refine ⟨fun v => ⟨rfl, rfl⟩, ?_, ?_, ?_, ?_, ?_, rfl, rfl, rfl⟩
  · intro s v hs hb
    have ht : Json.truthy (.str s) = true := by simp [Json.truthy, hs]
    simp [HardwareInfo.parse_firmware_string, ht, hb, asStr]
  · intro s v hs hb hi
    have ht : Json.truthy (.str s) = true := by simp [Json.truthy, hs]
    simp [HardwareInfo.parse_firmware_string, ht, hb, hi, asStr]
  · intro s v hs hb hi hm
    have ht : Json.truthy (.str s) = true := by simp [Json.truthy, hs]
    simp [HardwareInfo.parse_firmware_string, ht, hb, hi, hm, asStr]
  · intro s v hs hb hi hm hrv
    have ht : Json.truthy (.str s) = true := by simp [Json.truthy, hs]
    rcases hrv with h | h <;>
      (simp [HardwareInfo.parse_firmware_string, ht, hb, hi, hm, h, asStr]; rfl)
  · intro s v hs hb hi hm hr hvi
    have ht : Json.truthy (.str s) = true := by simp [Json.truthy, hs]
    simp [HardwareInfo.parse_firmware_string, ht, hb, hi, hm, hr, hvi, asStr]

/-- Witness for C7: the generic fallback on an unknown vendor. -/
theorem claim_C7_witness :
    HardwareInfo.parse_firmware_string (.str "1.2.3 extra") (some "Acme Networks") =
      .ok (HardwareInfo.parse_firmware_generic "1.2.3 extra") := by
  exact (claim_C7).2.2.2.2.2.1 "1.2.3 extra" (some "Acme Networks")
    (by decide) (by decide) (by decide) (by decide) (by decide) (by decide)

/-- `takeWhile` passes over a block that satisfies the predicate. -/
theorem takeWhile_append_all {p : Char → Bool} {l1 l2 : List Char}
    (h : l1.all p = true) :
    (l1 ++ l2).takeWhile p = l1 ++ l2.takeWhile p := by
  induction l1 with
  | nil => simp
  | cons c rest ih =>
    simp only [List.all_cons, Bool.and_eq_true] at h
    simp [List.takeWhile_cons, h.1, ih h.2]

/-- `dropWhile` skips a block that satisfies the predicate. -/
theorem dropWhile_append_all {p : Char → Bool} {l1 l2 : List Char}
    (h : l1.all p = true) :
    (l1 ++ l2).dropWhile p = l2.dropWhile p := by
  induction l1 with
  | nil => simp
  | cons c rest ih =>
    simp only [List.all_cons, Bool.and_eq_true] at h
    simp [List.dropWhile_cons, h.1, ih h.2]

/-- A list is an `isPrefixOf` of itself followed by anything. -/
theorem isPrefixOf_append_self (l t : List Char) : l.isPrefixOf (l ++ t) = true := by
  induction l with
  | nil => simp [List.isPrefixOf]
  | cons c rest ih => simp [List.isPrefixOf, ih]

/-- Everything `takeWhile` keeps satisfies the predicate. -/
theorem all_takeWhile {p : Char → Bool} (l : List Char) :
    (l.takeWhile p).all p = true := by
  induction l with
  | nil => rfl
  | cons c rest ih =>
    by_cases h : p c = true
    · simp [List.takeWhile_cons, h, ih]
    · simp [List.takeWhile_cons, h]

/-- `pure` on `Except` is `Except.ok`. -/
@[simp] theorem except_pure_eq_ok {α : Type} (a : α) :
    (pure a : Except String α) = Except.ok a := rfl

/-- Reduction of `Except` binds on a success value. -/
@[simp] theorem except_bind_ok {α β : Type} (a : α) (f : α → Except String β) :
    ((Except.ok a : Except String α) >>= f) = f a := rfl

/-- Reduction of `Except` binds on a `pure` value. -/
@[simp] theorem except_pure_bind {α β : Type} (a : α) (f : α → Except String β) :
    ((pure a : Except String α) >>= f) = f a := rfl

/-- Reduction of `Except` binds on an error value. -/
@[simp] theorem except_bind_err {α β : Type} (e : String) (f : α → Except String β) :
    ((Except.error e : Except String α) >>= f) = Except.error e := rfl

/-- The PCI regex model succeeds on a well-formed bus address and returns
the device field. -/
theorem pciDeviceField_concat (s dom bus dev : String) (tail : List Char)
    (hs : s.data = "pci@".data ++ dom.data ++ ':' :: bus.data ++ ':' :: dev.data ++ '.' :: tail)
    (hd : dom.data ≠ []) (hda : dom.data.all hexChar = true)
    (hb : bus.data ≠ []) (hba : bus.data.all hexChar = true)
    (hv : dev.data ≠ []) (hva : dev.data.all hexChar = true)
    (ht : ∃ c rest, tail = c :: rest ∧ hexChar c = true) :
    pciDeviceField s = some dev := by
  obtain ⟨c, crest, rfl, hc⟩ := ht
  have hcolon : hexChar ':' = false := by decide
  have hdot : hexChar '.' = false := by decide
  have hpre : strStartsWith s "pci@" = true := by
    rw [strStartsWith, hs]
    exact isPrefixOf_append_self _ _
  have hdrop : s.data.drop 4 =
      dom.data ++ ':' :: bus.data ++ ':' :: dev.data ++ '.' :: c :: crest := by
    rw [hs]; rfl
  obtain ⟨dh, dt, hdeq⟩ : ∃ dh dt, dom.data = dh :: dt := by
    cases hx : dom.data with
    | nil => exact absurd hx hd
    | cons a b => exact ⟨a, b, rfl⟩
  obtain ⟨bh, bt, hbeq⟩ : ∃ bh bt, bus.data = bh :: bt := by
    cases hx : bus.data with
    | nil => exact absurd hx hb
    | cons a b => exact ⟨a, b, rfl⟩
  obtain ⟨vh, vt, hveq⟩ : ∃ vh vt, dev.data = vh :: vt := by
    cases hx : dev.data with
    | nil => exact absurd hx hv
    | cons a b => exact ⟨a, b, rfl⟩
  have hfin : some (String.mk (vh :: vt)) = some dev := by
    rw [← hveq]
  rw [hdeq] at hda
  rw [hbeq] at hba
  rw [hveq] at hva
  have hdrop2 : s.data.drop 4 =
      (dh :: dt) ++ (':' :: ((bh :: bt) ++ (':' :: ((vh :: vt) ++ ('.' :: c :: crest))))) := by
    rw [hdrop, hdeq, hbeq, hveq]
    simp [List.append_assoc]
  rw [pciDeviceField, if_pos hpre, hdrop2]
  simp only [takeWhile_append_all hda, dropWhile_append_all hda,
    takeWhile_append_all hba, dropWhile_append_all hba,
    takeWhile_append_all hva, dropWhile_append_all hva,
    List.takeWhile_cons_of_neg (by simp [hcolon] : ¬hexChar ':' = true),
    List.dropWhile_cons_of_neg (by simp [hcolon] : ¬hexChar ':' = true),
    List.takeWhile_cons_of_neg (by simp [hdot] : ¬hexChar '.' = true),
    List.dropWhile_cons_of_neg (by simp [hdot] : ¬hexChar '.' = true),
    List.takeWhile_cons_of_pos hc, List.append_nil]
  exact hfin

/-- A successful run of the PCI regex model decomposes the input into the
four anchored groups, the returned device field being the third. -/
theorem pciDeviceField_some (s dev : String)
    (h : pciDeviceField s = some dev) :
    ∃ (dom bus : String) (tail : List Char),
      s.data = "pci@".data ++ dom.data ++ ':' :: bus.data ++ ':' :: dev.data ++ '.' :: tail
      ∧ dom.data ≠ [] ∧ dom.data.all hexChar = true
      ∧ bus.data ≠ [] ∧ bus.data.all hexChar = true
      ∧ dev.data ≠ [] ∧ dev.data.all hexChar = true
      ∧ (∃ c rest, tail = c :: rest ∧ hexChar c = true) := by
  rw [pciDeviceField] at h
  by_cases hpre : strStartsWith s "pci@" = true
  swap
  · rw [if_neg hpre] at h; cases h
  rw [if_pos hpre] at h
  obtain ⟨t, hts⟩ : ∃ t, s.data = "pci@".data ++ t := by
    rw [strStartsWith] at hpre
    obtain ⟨t, ht2⟩ := List.isPrefixOf_iff_prefix.mp hpre
    exact ⟨t, ht2.symm⟩
  have hdrop : s.data.drop 4 = t := by rw [hts]; rfl
  rw [hdrop] at h
  split at h
  case _ d1h d1t r2 heq1a heq1b =>
    split at h
    case _ d2h d2t r4 heq2a heq2b =>
      split at h
      case _ d3h d3t r6 heq3a heq3b =>
        split at h
        case _ => cases h
        case _ c crest heq4 =>
          have hdev : dev = String.mk (d3h :: d3t) := by cases h; rfl
          refine ⟨String.mk (d1h :: d1t), String.mk (d2h :: d2t), r6, ?_, by simp, ?_,
            by simp, ?_, ?_, ?_, ?_⟩
          · rw [hts]
            have h1 : t = (d1h :: d1t) ++ ':' :: r2 := by
              rw [← heq1a, ← heq1b]
              exact (List.takeWhile_append_dropWhile hexChar t).symm
            have h2 : r2 = (d2h :: d2t) ++ ':' :: r4 := by
              rw [← heq2a, ← heq2b]
              exact (List.takeWhile_append_dropWhile hexChar r2).symm
            have h3 : r4 = (d3h :: d3t) ++ '.' :: r6 := by
              rw [← heq3a, ← heq3b]
              exact (List.takeWhile_append_dropWhile hexChar r4).symm
            rw [h1, h2, h3, hdev]
            simp
          · rw [← heq1a]; exact all_takeWhile t
          · rw [← heq2a]; exact all_takeWhile r2
          · rw [hdev]; simp
          · rw [hdev]
            show ((d3h :: d3t) : List Char).all hexChar = true
            rw [← heq3a]; exact all_takeWhile r4
          · cases hr6 : r6 with
            | nil => rw [hr6] at heq4; cases heq4
            | cons c2 rest2 =>
              refine ⟨c2, rest2, rfl, ?_⟩
              by_cases hcx : hexChar c2 = true
              · exact hcx
              · rw [hr6, List.takeWhile_cons_of_neg (by simp [hcx])] at heq4
                cases heq4
      case _ x y hne => cases h
    case _ x y hne => cases h
  case _ x y hne => cases h

/-- Reduced form of `_is_virtual_function` on a non-empty string. -/
theorem is_virtual_function_str (s : String) (hs : s ≠ "") :
    HardwareInfo.is_virtual_function (.str s) =
      .ok (if strStartsWith s "pci@" then
        match pciDeviceField s with
        | none => false
        | some device_num => decide (device_num ≠ "00")
      else false) := by
  have ht : Json.truthy (.str s) = true := by simp [Json.truthy, hs]
  rw [HardwareInfo.is_virtual_function]
  simp only [ht, Bool.not_true, Bool.false_eq_true, if_false, asStr, except_bind_ok,
    except_pure_bind]
  by_cases hpre : strStartsWith s "pci@" = true
  · rw [if_neg (not_not_intro hpre), if_pos hpre]
    cases pciDeviceField s <;> rfl
  · rw [if_pos hpre, if_neg hpre]
    rfl

/-- C5.  The SR-IOV Virtual-Function predicate: `None` and the empty or
non-`pci@` strings are never VFs; a bus address of the anchored form
`pci@<domain>:<bus>:<device>.<function>` with nonempty hex fields is a VF
exactly when the device field differs from `"00"`; and the predicate
returns `true` only on strings of that form, so unparsable addresses are
never VFs. -/
theorem claim_C5 :
    HardwareInfo.is_virtual_function .null = .ok false
    ∧ HardwareInfo.is_virtual_function (.str "") = .ok false
    ∧ (∀ s : String, strStartsWith s "pci@" = false →
        HardwareInfo.is_virtual_function (.str s) = .ok false)
    ∧ (∀ (s dom bus dev : String) (tail : List Char),
        s.data = "pci@".data ++ dom.data ++ ':' :: bus.data ++ ':' :: dev.data ++ '.' :: tail →
        dom.data ≠ [] → dom.data.all hexChar = true →
        bus.data ≠ [] → bus.data.all hexChar = true →
        dev.data ≠ [] → dev.data.all hexChar = true →
        (∃ c rest, tail = c :: rest ∧ hexChar c = true) →
        HardwareInfo.is_virtual_function (.str s) = .ok (decide (dev ≠ "00")))
    ∧ (∀ s : String, HardwareInfo.is_virtual_function (.str s) = .ok true →
        ∃ (dom bus dev : String) (tail : List Char),
          s.data = "pci@".data ++ dom.data ++ ':' :: bus.data ++ ':' :: dev.data ++ '.' :: tail
          ∧ dom.data ≠ [] ∧ dom.data.all hexChar = true
          ∧ bus.data ≠ [] ∧ bus.data.all hexChar = true
          ∧ dev.data ≠ [] ∧ dev.data.all hexChar = true
          ∧ (∃ c rest, tail = c :: rest ∧ hexChar c = true)
          ∧ dev ≠ "00") := by
  refine ⟨rfl, rfl, ?_, ?_, ?_⟩
  · intro s hpre
    by_cases hemp : s = ""
    · subst hemp; rfl
    · rw [is_virtual_function_str s hemp, if_neg (by simp [hpre])]
  · intro s dom bus dev tail hs hd hda hb hba hv hva htl
    have hsne : s ≠ "" := by
      intro hemp
      rw [hemp] at hs
      simp at hs
    have hpre : strStartsWith s "pci@" = true := by
      rw [strStartsWith, hs]
      exact isPrefixOf_append_self _ _
    have hfield := pciDeviceField_concat s dom bus dev tail hs hd hda hb hba hv hva htl
    rw [is_virtual_function_str s hsne, if_pos hpre, hfield]
  · intro s hvf
    by_cases hemp : s = ""
    · subst hemp; cases hvf
    rw [is_virtual_function_str s hemp] at hvf
    by_cases hpre : strStartsWith s "pci@" = true
    swap
    · rw [if_neg hpre] at hvf; cases hvf
    rw [if_pos hpre] at hvf
    cases hfield : pciDeviceField s with
    | none => rw [hfield] at hvf; cases hvf
    | some dev =>
      rw [hfield] at hvf
      have hdev : dev ≠ "00" := by
        intro hx
        rw [hx] at hvf
        cases hvf
      obtain ⟨dom, bus, tail, hdec, p1, p2, p3, p4, p5, p6, p7⟩ :=
        pciDeviceField_some s dev hfield
      exact ⟨dom, bus, dev, tail, hdec, p1, p2, p3, p4, p5, p6, p7, hdev⟩

/-- Witness for C5: the spec's own examples — device `00` functions 0 and 3
are PFs, device `01` is a VF, and a USB address is not a VF. -/
theorem claim_C5_witness :
    HardwareInfo.is_virtual_function (.str "pci@0000:9d:00.0") = .ok false
    ∧ HardwareInfo.is_virtual_function (.str "pci@0000:9d:00.3") = .ok false
    ∧ HardwareInfo.is_virtual_function (.str "pci@0000:9d:01.0") = .ok true
    ∧ HardwareInfo.is_virtual_function (.str "usb@1:8") = .ok false := by
  refine ⟨?_, ?_, ?_, claim_C5.2.2.1 "usb@1:8" (by decide)⟩
  · have h := claim_C5.2.2.2.1 "pci@0000:9d:00.0" "0000" "9d" "00" ['0']
      (by decide) (by decide) (by decide) (by decide) (by decide) (by decide) (by decide)
      ⟨'0', [], rfl, by decide⟩
    rw [h]; rfl
  · have h := claim_C5.2.2.2.1 "pci@0000:9d:00.3" "0000" "9d" "00" ['3']
      (by decide) (by decide) (by decide) (by decide) (by decide) (by decide) (by decide)
      ⟨'3', [], rfl, by decide⟩
    rw [h]; rfl
  · have h := claim_C5.2.2.2.1 "pci@0000:9d:01.0" "0000" "9d" "01" ['0']
      (by decide) (by decide) (by decide) (by decide) (by decide) (by decide) (by decide)
      ⟨'0', [], rfl, by decide⟩
    rw [h]; rfl

/-- The vendor parser succeeds on an absent, falsy, or string vendor
entry. -/
theorem parse_vendor_string_ok (v : Option Json) (h : vendorEntryOk v = true) :
    ∃ r, HardwareInfo.parse_vendor_string (v.getD .null) = .ok r := by
  cases v with
  | none => exact ⟨(none, none), rfl⟩
  | some j =>
    cases j with
    | str s =>
      by_cases hemp : s = ""
      · subst hemp; exact ⟨(none, none), rfl⟩
      · have ht : Json.truthy (.str s) = true := by simp [Json.truthy, hemp]
        rw [HardwareInfo.parse_vendor_string]
        simp only [Option.getD_some, ht, Bool.not_true, Bool.false_eq_true, if_false,
          asStr, except_bind_ok]
        cases vendorMatch s with
        | none => exact ⟨(some s, none), rfl⟩
        | some p => exact ⟨(some (strTrim p.1), some (strUpper p.2)), rfl⟩
    | null => exact ⟨(none, none), rfl⟩
    | bool b =>
      simp only [vendorEntryOk, Bool.not_eq_true'] at h
      rw [HardwareInfo.parse_vendor_string]
      rw [if_pos (by simp [h])]
      exact ⟨(none, none), rfl⟩
    | num q =>
      simp only [vendorEntryOk, Bool.not_eq_true'] at h
      rw [HardwareInfo.parse_vendor_string]
      rw [if_pos (by simp [h])]
      exact ⟨(none, none), rfl⟩
    | arr l =>
      simp only [vendorEntryOk, Bool.not_eq_true'] at h
      rw [HardwareInfo.parse_vendor_string]
      rw [if_pos (by simp [h])]
      exact ⟨(none, none), rfl⟩
    | obj fs =>
      simp only [vendorEntryOk, Bool.not_eq_true'] at h
      rw [HardwareInfo.parse_vendor_string]
      rw [if_pos (by simp [h])]
      exact ⟨(none, none), rfl⟩

/-- On well-formed processor nodes the cores/threads loop accumulates
exactly the spec-side contributions. -/
theorem sumCoresThreads_wf (cpus : List Json) (c t : ℚ)
    (hwf : ∀ cpu ∈ cpus, cpuNodeWf cpu = true) :
    HardwareInfo.sumCoresThreads cpus c t =
      .ok (c + (cpus.map (fun x => specCoreContribution x "cores")).sum,
           t + (cpus.map (fun x => specCoreContribution x "threads")).sum) := by
  induction cpus generalizing c t with
  | nil =>
    simp only [List.map_nil, List.sum_nil, add_zero]
    rfl
  | cons cpu rest ih =>
    have hcpu := hwf cpu (List.mem_cons_self _ _)
    have hrest : ∀ x ∈ rest, cpuNodeWf x = true :=
      fun x hx => hwf x (List.mem_cons_of_mem _ hx)
    obtain ⟨fs, rfl⟩ : ∃ fs, cpu = .obj fs := by
      cases cpu <;> simp_all [cpuNodeWf]
    rw [HardwareInfo.sumCoresThreads]
    simp only [asObj, except_bind_ok]
    cases hcfg : lookupField fs "configuration" with
    | none =>
      simp only [hcfg, Option.getD_none, lookupField,
        show HardwareInfo.coreAccum c Json.null = Except.ok c from rfl,
        show HardwareInfo.coreAccum t Json.null = Except.ok t from rfl,
        except_bind_ok]
      rw [ih _ _ hrest]
      simp [specCoreContribution, hcfg, add_assoc]
    | some cfgv =>
      cases cfgv with
      | obj cfg =>
        rw [cpuNodeWf] at hcpu
        rw [hcfg] at hcpu
        simp only [Bool.and_eq_true] at hcpu
        simp only [hcfg, Option.getD_some]
        have hentry : ∀ (key : String) (q0 : ℚ), coreEntryOk (lookupField cfg key) = true →
            HardwareInfo.coreAccum q0 ((lookupField cfg key).getD .null) =
              .ok (q0 + specCoreContribution (.obj fs) key) := by
          intro key q0 hk
          cases hv : lookupField cfg key with
          | none =>
            simp [hv, HardwareInfo.coreAccum, Json.truthy, specCoreContribution, hcfg]
          | some j =>
            cases j with
            | num q =>
              by_cases hq : q = 0
              · subst hq
                simp [hv, HardwareInfo.coreAccum, Json.truthy, specCoreContribution, hcfg]
              · simp [hv, HardwareInfo.coreAccum, Json.truthy, hq, HardwareInfo.coreVal,
                  specCoreContribution, hcfg]
            | str str =>
              simp only [hv, coreEntryOk.eq_def] at hk
              cases hpi : pyInt str with
              | none => rw [hpi] at hk; cases hk
              | some n =>
                have hne : str ≠ "" := by
                  intro hemp
                  subst hemp
                  cases hpi
                simp [hv, HardwareInfo.coreAccum, Json.truthy, hne,
                  HardwareInfo.coreVal, hpi, specCoreContribution, hcfg]
            | null =>
              simp [hv, HardwareInfo.coreAccum, Json.truthy, specCoreContribution, hcfg]
            | bool b => simp [hv, coreEntryOk.eq_def] at hk
            | arr l => simp [hv, coreEntryOk.eq_def] at hk
            | obj fs2 => simp [hv, coreEntryOk.eq_def] at hk
        rw [hentry "cores" c hcpu.1]
        simp only [except_bind_ok]
        rw [hentry "threads" t hcpu.2]
        simp only [except_bind_ok]
        rw [ih _ _ hrest]
        simp [add_assoc]
      | null =>
        simp only [hcfg, Option.getD_some]
        rw [ih _ _ hrest]
        simp [specCoreContribution, hcfg, add_assoc]
      | bool b =>
        simp only [hcfg, Option.getD_some]
        rw [ih _ _ hrest]
        simp [specCoreContribution, hcfg, add_assoc]
      | num q =>
        simp only [hcfg, Option.getD_some]
        rw [ih _ _ hrest]
        simp [specCoreContribution, hcfg, add_assoc]
      | str s =>
        simp only [hcfg, Option.getD_some]
        rw [ih _ _ hrest]
        simp [specCoreContribution, hcfg, add_assoc]
      | arr l =>
        simp only [hcfg, Option.getD_some]
        rw [ih _ _ hrest]
        simp [specCoreContribution, hcfg, add_assoc]

/-- A non-numeric `size` entry accepted by `sizeEntryOk` is falsy. -/
theorem sizeEntryOk_cases (v : Json) (h : sizeEntryOk (some v) = true) :
    v.truthy = false ∨ ∃ q : ℚ, v = .num q := by
  cases v with
  | num q => exact Or.inr ⟨q, rfl⟩
  | null => exact Or.inl rfl
  | bool b =>
    simp only [sizeEntryOk, Json.truthy, Bool.not_eq_true'] at h
    simp [Json.truthy, h]
  | str s =>
    simp only [sizeEntryOk, Json.truthy, Bool.not_eq_true'] at h
    simp [Json.truthy, h]
  | arr l =>
    simp only [sizeEntryOk, Json.truthy, Bool.not_eq_true'] at h
    simp [Json.truthy, h]
  | obj fs =>
    simp only [sizeEntryOk, Json.truthy, Bool.not_eq_true'] at h
    simp [Json.truthy, h]

/-- Counterexample to claim C6 as stated: the claim says `cpu_frequency_mhz`
equals the first processor's `size / 1_000_000` truncated to an integer, "or
None when size is absent".  The source guards the division with
`if cpu_freq_hz:`, so a PRESENT but zero `size` also yields `None`, not
`int(0 / 1_000_000) = 0`: here the processor node carries `size = 0`, the
field is present, yet the extractor reports no frequency. -/
theorem claim_C6_counterexample :
    ∃ info, HardwareInfo.extract_cpu_info
        (.obj [("id", .str "machine"), ("class", .str "system"),
               ("children", .arr [.obj [("id", .str "cpu"),
                 ("class", .str "processor"), ("size", .num 0)]])]) = .ok info ∧
      lookupField [("id", .str "cpu"), ("class", .str "processor"),
        ("size", .num 0)] "size" = some (.num 0) ∧
      info.cpu_frequency_mhz = none ∧
      ∀ q : ℚ, info.cpu_frequency_mhz ≠ some (pyTrunc (q / 1000000)) := by
  exact ⟨⟨none, .null, 1, 0, 0, none⟩, rfl, rfl, rfl,
    fun q h => Option.noConfusion h⟩

/-- Claim C6 (amended): on any capture whose processor nodes are dicts with
well-formed `configuration.cores`/`threads` entries, and whose first
processor node has an acceptable `vendor` and `size`, `_extract_cpu_info`
succeeds; `cpu_sockets` is the number of processor nodes found,
`cpu_total_cores`/`cpu_total_threads` are the sums of the per-node
contributions (decimal string or number, missing contributing 0),
`cpu_model` and `cpu_vendor` come from the first node, and
`cpu_frequency_mhz` is `size / 1_000_000` truncated when `size` is a
non-zero number, and `None` when `size` is absent OR falsy (amendment: a
present `size` of 0 gives `None`, not 0). -/
theorem claim_C6 (data first : Json) (cpus rest : List Json)
    (ffs : List (String × Json))
    (hfind : HardwareInfo.find_nodes_by_class "processor" data = .ok cpus)
    (hcpus : cpus = first :: rest)
    (hwf : ∀ cpu ∈ cpus, cpuNodeWf cpu = true)
    (hfirst : first = .obj ffs)
    (hvendor : vendorEntryOk (lookupField ffs "vendor") = true)
    (hsize : sizeEntryOk (lookupField ffs "size") = true) :
    ∃ info, HardwareInfo.extract_cpu_info data = .ok info ∧
      info.cpu_sockets = cpus.length ∧
      info.cpu_total_cores =
        (cpus.map (fun x => specCoreContribution x "cores")).sum ∧
      info.cpu_total_threads =
        (cpus.map (fun x => specCoreContribution x "threads")).sum ∧
      info.cpu_model = (lookupField ffs "product").getD .null ∧
      (∃ sku, HardwareInfo.parse_vendor_string
          ((lookupField ffs "vendor").getD .null) = .ok (info.cpu_vendor, sku)) ∧
      (∀ q : ℚ, lookupField ffs "size" = some (.num q) → ¬ q = 0 →
        info.cpu_frequency_mhz = some (pyTrunc (q / 1000000))) ∧
      (∀ v, lookupField ffs "size" = some v → v.truthy = false →
        info.cpu_frequency_mhz = none) ∧
      (lookupField ffs "size" = none → info.cpu_frequency_mhz = none) := by
  subst hcpus
  subst hfirst
  obtain ⟨⟨vnd, sk⟩, hpv⟩ := parse_vendor_string_ok _ hvendor
  cases hs : lookupField ffs "size" with
  | none =>
    simp only [HardwareInfo.extract_cpu_info, hfind, except_bind_ok, asObj,
      except_pure_bind, except_pure_eq_ok, hpv, hs, Option.getD_none,
      Json.truthy, Bool.false_eq_true, if_false]
    rw [sumCoresThreads_wf _ 0 0 hwf]
    simp only [except_bind_ok, except_pure_eq_ok, zero_add]
    exact ⟨_, rfl, rfl, rfl, rfl, rfl, ⟨sk, rfl⟩,
      fun q hq _ => Option.noConfusion hq, fun _ _ _ => rfl, fun _ => rfl⟩
  | some v =>
    rw [hs] at hsize
    rcases sizeEntryOk_cases v hsize with ht | ⟨q, rfl⟩
    · simp only [HardwareInfo.extract_cpu_info, hfind, except_bind_ok, asObj,
        except_pure_bind, except_pure_eq_ok, hpv, hs, Option.getD_some]
      rw [if_neg (by simp [ht])]
      rw [sumCoresThreads_wf _ 0 0 hwf]
      simp only [except_bind_ok, except_pure_bind, except_pure_eq_ok, zero_add]
      refine ⟨_, rfl, rfl, rfl, rfl, rfl, ⟨sk, rfl⟩, ?_, fun _ _ _ => rfl,
        fun h => Option.noConfusion h⟩
      intro q hq hne
      injection hq with h1
      rw [h1] at ht
      simp only [Json.truthy, decide_eq_false_iff_not, not_not] at ht
      exact absurd ht hne
    · by_cases hq : q = 0
      · have ht : Json.truthy (.num q) = false := by
          simp [Json.truthy, hq]
        simp only [HardwareInfo.extract_cpu_info, hfind, except_bind_ok, asObj,
          except_pure_bind, except_pure_eq_ok, hpv, hs, Option.getD_some]
        rw [if_neg (by simp [ht])]
        rw [sumCoresThreads_wf _ 0 0 hwf]
        simp only [except_bind_ok, except_pure_bind, except_pure_eq_ok, zero_add]
        refine ⟨_, rfl, rfl, rfl, rfl, rfl, ⟨sk, rfl⟩, ?_, fun _ _ _ => rfl,
          fun h => Option.noConfusion h⟩
        intro q2 hq2 hne
        injection hq2 with h1
        injection h1 with h2
        rw [← h2] at hne
        exact absurd hq hne
      · have ht : Json.truthy (.num q) = true := by
          simp [Json.truthy, hq]
        simp only [HardwareInfo.extract_cpu_info, hfind, except_bind_ok, asObj,
          except_pure_bind, except_pure_eq_ok, hpv, hs, Option.getD_some]
        rw [if_pos ht]
        rw [sumCoresThreads_wf _ 0 0 hwf]
        simp only [except_bind_ok, except_pure_bind, except_pure_eq_ok, zero_add]
        refine ⟨_, rfl, rfl, rfl, rfl, rfl, ⟨sk, rfl⟩, ?_, ?_,
          fun h => Option.noConfusion h⟩
        · intro q2 hq2 _
          injection hq2 with h1
          injection h1 with h2
          subst h2
          rfl
        · intro v hv hvt
          injection hv with h1
          rw [← h1] at hvt
          rw [ht] at hvt
          exact Bool.noConfusion hvt

/-- Witness for claim C6 at the concrete two-processor scenario:
two processor nodes, each with string `cores = "32"` and `threads = "64"`,
give 2 sockets, 64 total cores and 128 total threads. -/
theorem claim_C6_witness :
    ∃ info, HardwareInfo.extract_cpu_info (cpuScenarioData "32" "64") = .ok info ∧
      info.cpu_sockets = 2 ∧ info.cpu_total_cores = 64 ∧
      info.cpu_total_threads = 128 := by
  obtain ⟨info, h1, h2, h3, h4, _⟩ :=
    claim_C6 (cpuScenarioData "32" "64") (cpuScenarioNode "32" "64")
      [cpuScenarioNode "32" "64", cpuScenarioNode "32" "64"]
      [cpuScenarioNode "32" "64"]
      [("id", .str "cpu"), ("class", .str "processor"),
       ("vendor", .str "Intel Corp."),
       ("configuration", .obj [("cores", .str "32"), ("threads", .str "64")])]
      rfl rfl (by decide) rfl (by decide) (by decide)
  have hpi32 : pyInt "32" = some 32 := by decide
  have hpi64 : pyInt "64" = some 64 := by decide
  have hc : specCoreContribution (cpuScenarioNode "32" "64") "cores" = (32 : ℚ) := by
    simp [specCoreContribution, cpuScenarioNode, lookupField, hpi32]
  have hthr : specCoreContribution (cpuScenarioNode "32" "64") "threads" = (64 : ℚ) := by
    simp [specCoreContribution, cpuScenarioNode, lookupField, hpi64]
  refine ⟨info, h1, h2, ?_, ?_⟩
  · rw [h3]
    simp [hc]
    norm_num
  · rw [h4]
    simp [hthr]
    norm_num

/-- Counterexample to claim C2 as stated: the claim restricts counted nodes
to ids exactly `memory` or of the form `memory:<n>` (numeric suffix).  The
source only tests `node_id.startswith("memory:")`: a node with id
`memory:x` — not of the form `memory:<n>` — whose description contains
`System Memory` still has its 1 GiB size counted, so the whole capture
reports `memory_total_gb = 1.0`. -/
theorem claim_C2_counterexample :
    specMemoryIdForm "memory:x" = false ∧
    HardwareInfo.memSizeContribution [("id", .str "memory:x"),
      ("class", .str "memory"),
      ("description", .str "System Memory"), ("size", .num 1073741824)] =
      .ok 1073741824 ∧
    HardwareInfo.extract_memory_info (.obj [("id", .str "machine"),
      ("class", .str "system"), ("children", .arr [.obj [("id", .str "memory:x"),
        ("class", .str "memory"), ("description", .str "System Memory"),
        ("size", .num 1073741824)]])]) = .ok (1, 0) := by
  refine ⟨by decide, rfl, ?_⟩
  have hfind : HardwareInfo.find_nodes_by_class "memory"
      (.obj [("id", .str "machine"),
        ("class", .str "system"), ("children", .arr [.obj [("id", .str "memory:x"),
          ("class", .str "memory"), ("description", .str "System Memory"),
          ("size", .num 1073741824)]])]) =
      .ok [.obj [("id", .str "memory:x"), ("class", .str "memory"),
        ("description", .str "System Memory"), ("size", .num 1073741824)]] := rfl
  have hfold : HardwareInfo.memFold [.obj [("id", .str "memory:x"),
      ("class", .str "memory"),
      ("description", .str "System Memory"), ("size", .num 1073741824)]] (0, 0) =
      .ok (0 + 1073741824, 0 + 0) := rfl
  simp only [HardwareInfo.extract_memory_info, hfind, except_bind_ok, hfold]
  norm_num [pyRound1, roundHalfEven]

/-- Claim C2 (amended): a memory node's `size` counts toward the total only
when its id is the string `memory` or any string starting with `memory:`
(amendment: the source tests only the `memory:` prefix, not a numeric
suffix), and additionally either its description contains `System Memory`
or its id is exactly `memory`; and the two-node 256 GiB scenario with two
DIMM children per node yields `memory_total_gb = 512.0` and
`memory_dimm_count = 4`. -/
theorem claim_C2 :
    (∀ (fields : List (String × Json)) (contrib : ℚ),
      HardwareInfo.memSizeContribution fields = .ok contrib → ¬ contrib = 0 →
        (∃ s, (lookupField fields "id").getD (.str "") = .str s ∧
          (s = "memory" ∨ strStartsWith s "memory:" = true)) ∧
        ∃ b, pyInStr "System Memory"
            ((lookupField fields "description").getD (.str "")) = .ok b ∧
          (b = true ∨ (lookupField fields "id").getD (.str "") = .str "memory")) ∧
    HardwareInfo.extract_memory_info
      (memScenarioData "System Memory" "System Memory"
        [dimmNode "bank:0" 34359738368, dimmNode "bank:1" 34359738368]
        [dimmNode "bank:2" 34359738368, dimmNode "bank:3" 34359738368]) =
      .ok (512, 4) := by
  constructor
  · intro fields contrib hok hne
    rcases hv : (lookupField fields "id").getD (.str "") with _ | b0 | q0 | s | l0 | fs0
    · simp [HardwareInfo.memSizeContribution, hv, jsonEqStr] at hok
      exact absurd hok.symm hne
    · simp [HardwareInfo.memSizeContribution, hv, jsonEqStr] at hok
      exact absurd hok.symm hne
    · simp [HardwareInfo.memSizeContribution, hv, jsonEqStr] at hok
      exact absurd hok.symm hne
    · by_cases h1 : s = "memory"
      · refine ⟨⟨s, rfl, Or.inl h1⟩, ?_⟩
        cases hpy : pyInStr "System Memory"
            ((lookupField fields "description").getD (.str "")) with
        | error e =>
          simp [HardwareInfo.memSizeContribution, jsonEqStr, hv, hpy, h1] at hok
        | ok b =>
          exact ⟨b, rfl, Or.inr (by rw [h1])⟩
      · by_cases h2 : strStartsWith s "memory:" = true
        · refine ⟨⟨s, rfl, Or.inr h2⟩, ?_⟩
          cases hpy : pyInStr "System Memory"
              ((lookupField fields "description").getD (.str "")) with
          | error e =>
            simp [HardwareInfo.memSizeContribution, jsonEqStr, hv, hpy, h1, h2] at hok
          | ok b =>
            refine ⟨b, rfl, ?_⟩
            by_cases hb : b = true
            · exact Or.inl hb
            · simp [HardwareInfo.memSizeContribution, jsonEqStr, hv, hpy,
                h1, h2, hb] at hok
              exact absurd hok.symm hne
        · simp [HardwareInfo.memSizeContribution, hv, jsonEqStr, h1, h2] at hok
          exact absurd hok.symm hne
    · simp [HardwareInfo.memSizeContribution, hv, jsonEqStr] at hok
      exact absurd hok.symm hne
    · simp [HardwareInfo.memSizeContribution, hv, jsonEqStr] at hok
      exact absurd hok.symm hne
  · have hfind : HardwareInfo.find_nodes_by_class "memory"
        (memScenarioData "System Memory" "System Memory"
          [dimmNode "bank:0" 34359738368, dimmNode "bank:1" 34359738368]
          [dimmNode "bank:2" 34359738368, dimmNode "bank:3" 34359738368]) =
        .ok [sysMemNode "memory:0" "System Memory"
               [dimmNode "bank:0" 34359738368, dimmNode "bank:1" 34359738368],
             dimmNode "bank:0" 34359738368, dimmNode "bank:1" 34359738368,
             sysMemNode "memory:1" "System Memory"
               [dimmNode "bank:2" 34359738368, dimmNode "bank:3" 34359738368],
             dimmNode "bank:2" 34359738368, dimmNode "bank:3" 34359738368] := rfl
    have hfold : HardwareInfo.memFold
        [sysMemNode "memory:0" "System Memory"
           [dimmNode "bank:0" 34359738368, dimmNode "bank:1" 34359738368],
         dimmNode "bank:0" 34359738368, dimmNode "bank:1" 34359738368,
         sysMemNode "memory:1" "System Memory"
           [dimmNode "bank:2" 34359738368, dimmNode "bank:3" 34359738368],
         dimmNode "bank:2" 34359738368, dimmNode "bank:3" 34359738368] (0, 0) =
        .ok (0 + 274877906944 + 0 + 0 + 274877906944 + 0 + 0, 4) := rfl
    simp only [HardwareInfo.extract_memory_info, hfind, except_bind_ok, hfold]
    norm_num [pyRound1, roundHalfEven]

/-- Witness for claim C2 at a concrete 256 GiB `memory:0` node: the general
part of the claim applies and reports the `memory:`-prefixed id and the
`System Memory` description hit. -/
theorem claim_C2_witness :
    (¬ (274877906944 : ℚ) = 0) ∧
    ((∃ s, (lookupField [("id", .str "memory:0"),
        ("description", .str "System Memory"),
        ("size", .num 274877906944)] "id").getD (.str "") = .str s ∧
        (s = "memory" ∨ strStartsWith s "memory:" = true)) ∧
      ∃ b, pyInStr "System Memory"
          ((lookupField [("id", .str "memory:0"),
            ("description", .str "System Memory"),
            ("size", .num 274877906944)] "description").getD (.str "")) = .ok b ∧
        (b = true ∨ (lookupField [("id", .str "memory:0"),
          ("description", .str "System Memory"),
          ("size", .num 274877906944)] "id").getD (.str "") = .str "memory")) :=
  ⟨by decide, claim_C2.1 _ _ rfl (by decide)⟩

/-- A dict whose `class` matches appears in its own `find_nodes_by_class`
result (it is the head of the pre-order list). -/
theorem find_mem_self (cls : String) (dfs : List (String × Json)) (a : List Json)
    (hok : HardwareInfo.find_nodes_by_class cls (.obj dfs) = .ok a)
    (hcls : jsonEqStr ((lookupField dfs "class").getD .null) cls = true) :
    Json.obj dfs ∈ a := by
  simp only [HardwareInfo.find_nodes_by_class] at hok
  cases hscan : HardwareInfo.findChildrenScan cls dfs with
  | error e => simp [hscan] at hok
  | ok rr =>
    simp only [hscan, except_bind_ok, except_pure_eq_ok, Except.ok.injEq] at hok
    subst hok
    rw [hcls]
    simp

/-- A class-matching dict among a list of children appears in the
`findNodesList` result. -/
theorem findNodesList_mem_self (cls : String) (d : Json)
    (dfs : List (String × Json))
    (hdo : d = .obj dfs)
    (hcls : jsonEqStr ((lookupField dfs "class").getD .null) cls = true) :
    ∀ (items r : List Json),
      HardwareInfo.findNodesList cls items = .ok r → d ∈ items → d ∈ r := by
  intro items
  induction items with
  | nil => intro r _ hd; cases hd
  | cons x rest ih =>
    intro r hok hd
    simp only [HardwareInfo.findNodesList] at hok
    cases ha : HardwareInfo.find_nodes_by_class cls x with
    | error e => simp [ha] at hok
    | ok a =>
      simp only [ha, except_bind_ok] at hok
      cases hb : HardwareInfo.findNodesList cls rest with
      | error e => simp [hb] at hok
      | ok b =>
        simp only [hb, except_bind_ok, except_pure_eq_ok, Except.ok.injEq] at hok
        subst hok
        rcases List.mem_cons.mp hd with heq | hmem
        · subst heq
          rw [hdo] at ha
          rw [hdo]
          exact List.mem_append_left _ (find_mem_self cls dfs a ha hcls)
        · exact List.mem_append_right _ (ih b hb hmem)

/-- A class-matching dict among the items of the first `children` binding
appears in the `findChildrenScan` result. -/
theorem findChildrenScan_mem (cls : String) (d : Json)
    (dfs : List (String × Json)) (ch : List Json)
    (hdo : d = .obj dfs)
    (hcls : jsonEqStr ((lookupField dfs "class").getD .null) cls = true)
    (hd : d ∈ ch) :
    ∀ (fields : List (String × Json)) (r : List Json),
      HardwareInfo.findChildrenScan cls fields = .ok r →
      lookupField fields "children" = some (.arr ch) → d ∈ r := by
  intro fields
  induction fields with
  | nil =>
    intro r _ hlk
    simp [lookupField] at hlk
  | cons kv rest ih =>
    obtain ⟨k, v⟩ := kv
    intro r hok hlk
    by_cases hk : k = "children"
    · subst hk
      simp [lookupField] at hlk
      subst hlk
      simp only [HardwareInfo.findChildrenScan, if_true] at hok
      exact findNodesList_mem_self cls d dfs hdo hcls ch r hok hd
    · simp [lookupField, hk] at hlk
      cases v <;>
        (simp only [HardwareInfo.findChildrenScan] at hok; rw [if_neg hk] at hok;
          exact ih r hok hlk)

mutual

/-- Subtree transitivity of the pre-order class search: when a `cls1`-run
finds the dict `sfs`, and a `cls2`-matching dict `d` sits among the
children of `sfs`, a `cls2`-run over the same tree finds `d`. -/
theorem findSubtree : ∀ (cls1 cls2 : String) (d : Json)
    (dfs sfs : List (String × Json)) (ch : List Json) (j : Json),
    d = .obj dfs →
    jsonEqStr ((lookupField dfs "class").getD .null) cls2 = true →
    lookupField sfs "children" = some (.arr ch) → d ∈ ch →
    ∀ (l1 l2 : List Json),
      HardwareInfo.find_nodes_by_class cls1 j = .ok l1 → Json.obj sfs ∈ l1 →
      HardwareInfo.find_nodes_by_class cls2 j = .ok l2 → d ∈ l2
  | cls1, cls2, d, dfs, sfs, ch, j => by
    intro hdo hcls hch hd l1 l2 hok1 hmem hok2
    cases j with
    | obj fields =>
      simp only [HardwareInfo.find_nodes_by_class] at hok1 hok2
      cases hscan1 : HardwareInfo.findChildrenScan cls1 fields with
      | error e => simp [hscan1] at hok1
      | ok r1 =>
        cases hscan2 : HardwareInfo.findChildrenScan cls2 fields with
        | error e => simp [hscan2] at hok2
        | ok r2 =>
          simp only [hscan1, except_bind_ok, except_pure_eq_ok,
            Except.ok.injEq] at hok1
          simp only [hscan2, except_bind_ok, except_pure_eq_ok,
            Except.ok.injEq] at hok2
          subst hok1
          subst hok2
          rcases List.mem_append.mp hmem with hin | hin
          · cases hc : jsonEqStr ((lookupField fields "class").getD .null) cls1 with
            | false => simp [hc] at hin
            | true =>
              simp [hc] at hin
              subst hin
              exact List.mem_append_right _
                (findChildrenScan_mem cls2 d dfs ch hdo hcls hd sfs r2 hscan2 hch)
          · exact List.mem_append_right _
              (findScanSub cls1 cls2 d dfs sfs ch fields hdo hcls hch hd
                r1 r2 hscan1 hin hscan2)
    | null =>
      simp only [HardwareInfo.find_nodes_by_class, except_pure_eq_ok,
        Except.ok.injEq] at hok1
      subst hok1
      cases hmem
    | bool b =>
      simp only [HardwareInfo.find_nodes_by_class, except_pure_eq_ok,
        Except.ok.injEq] at hok1
      subst hok1
      cases hmem
    | num q =>
      simp only [HardwareInfo.find_nodes_by_class, except_pure_eq_ok,
        Except.ok.injEq] at hok1
      subst hok1
      cases hmem
    | str s =>
      simp only [HardwareInfo.find_nodes_by_class, except_pure_eq_ok,
        Except.ok.injEq] at hok1
      subst hok1
      cases hmem
    | arr l =>
      simp only [HardwareInfo.find_nodes_by_class, except_pure_eq_ok,
        Except.ok.injEq] at hok1
      subst hok1
      cases hmem
termination_by structural _ _ _ _ _ _ j => j

/-- `findSubtree` for the children scan of one dict's field list. -/
theorem findScanSub : ∀ (cls1 cls2 : String) (d : Json)
    (dfs sfs : List (String × Json)) (ch : List Json)
    (fields : List (String × Json)),
    d = .obj dfs →
    jsonEqStr ((lookupField dfs "class").getD .null) cls2 = true →
    lookupField sfs "children" = some (.arr ch) → d ∈ ch →
    ∀ (r1 r2 : List Json),
      HardwareInfo.findChildrenScan cls1 fields = .ok r1 → Json.obj sfs ∈ r1 →
      HardwareInfo.findChildrenScan cls2 fields = .ok r2 → d ∈ r2
  | cls1, cls2, d, dfs, sfs, ch, [] => by
    intro hdo hcls hch hd r1 r2 hok1 hmem hok2
    simp [HardwareInfo.findChildrenScan] at hok1
    subst hok1
    cases hmem
  | cls1, cls2, d, dfs, sfs, ch, (k, v) :: rest => by
    intro hdo hcls hch hd r1 r2 hok1 hmem hok2
    by_cases hk : k = "children"
    · subst hk
      cases v with
      | arr items =>
        simp only [HardwareInfo.findChildrenScan, if_true] at hok1 hok2
        exact findListSub cls1 cls2 d dfs sfs ch items hdo hcls hch hd
          r1 r2 hok1 hmem hok2
      | str s =>
        simp only [HardwareInfo.findChildrenScan, if_true, except_pure_eq_ok,
          Except.ok.injEq] at hok1
        subst hok1
        cases hmem
      | obj fs2 =>
        simp only [HardwareInfo.findChildrenScan, if_true, except_pure_eq_ok,
          Except.ok.injEq] at hok1
        subst hok1
        cases hmem
      | null =>
        simp only [HardwareInfo.findChildrenScan, if_true] at hok1
        exact Except.noConfusion hok1
      | bool b =>
        simp only [HardwareInfo.findChildrenScan, if_true] at hok1
        exact Except.noConfusion hok1
      | num q =>
        simp only [HardwareInfo.findChildrenScan, if_true] at hok1
        exact Except.noConfusion hok1
    · cases v <;>
        (simp only [HardwareInfo.findChildrenScan] at hok1 hok2
         rw [if_neg hk] at hok1 hok2
         exact findScanSub cls1 cls2 d dfs sfs ch rest hdo hcls hch hd
           r1 r2 hok1 hmem hok2)
termination_by structural _ _ _ _ _ _ l => l

/-- `findSubtree` for a list of children nodes. -/
theorem findListSub : ∀ (cls1 cls2 : String) (d : Json)
    (dfs sfs : List (String × Json)) (ch : List Json) (items : List Json),
    d = .obj dfs →
    jsonEqStr ((lookupField dfs "class").getD .null) cls2 = true →
    lookupField sfs "children" = some (.arr ch) → d ∈ ch →
    ∀ (r1 r2 : List Json),
      HardwareInfo.findNodesList cls1 items = .ok r1 → Json.obj sfs ∈ r1 →
      HardwareInfo.findNodesList cls2 items = .ok r2 → d ∈ r2
  | cls1, cls2, d, dfs, sfs, ch, [] => by
    intro hdo hcls hch hd r1 r2 hok1 hmem hok2
    simp [HardwareInfo.findNodesList] at hok1
    subst hok1
    cases hmem
  | cls1, cls2, d, dfs, sfs, ch, x :: rest => by
    intro hdo hcls hch hd r1 r2 hok1 hmem hok2
    simp only [HardwareInfo.findNodesList] at hok1 hok2
    cases ha1 : HardwareInfo.find_nodes_by_class cls1 x with
    | error e => simp [ha1] at hok1
    | ok a1 =>
      cases hb1 : HardwareInfo.findNodesList cls1 rest with
      | error e => simp [ha1, hb1] at hok1
      | ok b1 =>
        cases ha2 : HardwareInfo.find_nodes_by_class cls2 x with
        | error e => simp [ha2] at hok2
        | ok a2 =>
          cases hb2 : HardwareInfo.findNodesList cls2 rest with
          | error e => simp [ha2, hb2] at hok2
          | ok b2 =>
            simp only [ha1, hb1, except_bind_ok, except_pure_eq_ok,
              Except.ok.injEq] at hok1
            simp only [ha2, hb2, except_bind_ok, except_pure_eq_ok,
              Except.ok.injEq] at hok2
            subst hok1
            subst hok2
            rcases List.mem_append.mp hmem with hin | hin
            · exact List.mem_append_left _
                (findSubtree cls1 cls2 d dfs sfs ch x hdo hcls hch hd
                  a1 a2 ha1 hin ha2)
            · exact List.mem_append_right _
                (findListSub cls1 cls2 d dfs sfs ch rest hdo hcls hch hd
                  b1 b2 hb1 hin hb2)
termination_by structural _ _ _ _ _ _ l => l

end

/-- A disk node that parses to a device contributes that device to the
disk-phase list. -/
theorem parseDiskList_mem (dfs : List (String × Json)) (info : StorageDevice)
    (hp : HardwareInfo.parse_storage_device dfs = .ok (some info)) :
    ∀ (l : List Json) (a : List StorageDevice),
      HardwareInfo.parseDiskList l = .ok a → Json.obj dfs ∈ l → info ∈ a := by
  intro l
  induction l with
  | nil => intro a _ hd; cases hd
  | cons x rest ih =>
    intro a hok hd
    simp only [HardwareInfo.parseDiskList] at hok
    cases hfs : asObj x with
    | error e => simp [hfs] at hok
    | ok fs =>
      simp only [hfs, except_bind_ok] at hok
      cases hio : HardwareInfo.parse_storage_device fs with
      | error e => simp [hio] at hok
      | ok io =>
        simp only [hio, except_bind_ok] at hok
        cases hrest : HardwareInfo.parseDiskList rest with
        | error e => simp [hrest] at hok
        | ok restL =>
          simp only [hrest, except_bind_ok, except_pure_eq_ok,
            Except.ok.injEq] at hok
          subst hok
          rcases List.mem_cons.mp hd with heq | hmem
          · subst heq
            simp only [asObj, Except.ok.injEq] at hfs
            subst hfs
            rw [hp] at hio
            injection hio with h
            subst h
            simp
          · exact List.mem_append_right _ (ih restL hrest hmem)

/-- A `disk`-class child that parses to a device contributes that device to
the volume/disk scan of one storage node's children. -/
theorem parseVolChildren_mem (dfs : List (String × Json)) (info : StorageDevice)
    (hcls : lookupField dfs "class" = some (.str "disk"))
    (hp : HardwareInfo.parse_storage_device dfs = .ok (some info)) :
    ∀ (ch : List Json) (r : List StorageDevice),
      HardwareInfo.parseVolChildren ch = .ok r → Json.obj dfs ∈ ch → info ∈ r := by
  intro ch
  induction ch with
  | nil => intro r _ hd; cases hd
  | cons child rest ih =>
    intro r hok hd
    cases child with
    | obj cfs =>
      simp only [HardwareInfo.parseVolChildren] at hok
      rcases List.mem_cons.mp hd with heq | hmem
      · injection heq with hfs
        subst hfs
        have hcnd : (jsonEqStr ((lookupField dfs "class").getD .null) "volume" ||
            jsonEqStr ((lookupField dfs "class").getD .null) "disk") = true := by
          rw [hcls]; rfl
        rw [if_pos hcnd] at hok
        simp only [hp, except_bind_ok, except_pure_bind] at hok
        cases hrest : HardwareInfo.parseVolChildren rest with
        | error e => simp [hrest] at hok
        | ok restL =>
          simp only [hrest, except_bind_ok, except_pure_eq_ok,
            Except.ok.injEq] at hok
          subst hok
          simp
      · cases hcond : (jsonEqStr ((lookupField cfs "class").getD .null) "volume" ||
            jsonEqStr ((lookupField cfs "class").getD .null) "disk") with
        | false =>
          simp only [hcond, Bool.false_eq_true, if_false, except_pure_bind] at hok
          cases hrest : HardwareInfo.parseVolChildren rest with
          | error e => simp [hrest] at hok
          | ok restL =>
            simp only [hrest, except_bind_ok, except_pure_eq_ok,
              Except.ok.injEq] at hok
            subst hok
            rw [List.nil_append]
            exact ih restL hrest hmem
        | true =>
          simp only [hcond, if_true] at hok
          cases hpi : HardwareInfo.parse_storage_device cfs with
          | error e => simp [hpi] at hok
          | ok io =>
            simp only [hpi, except_bind_ok, except_pure_bind] at hok
            cases hrest : HardwareInfo.parseVolChildren rest with
            | error e => simp [hrest] at hok
            | ok restL =>
              simp only [hrest, except_bind_ok, except_pure_eq_ok,
                Except.ok.injEq] at hok
              subst hok
              exact List.mem_append_right _ (ih restL hrest hmem)
    | null =>
      simp only [HardwareInfo.parseVolChildren, except_bind_err] at hok
      exact Except.noConfusion hok
    | bool b =>
      simp only [HardwareInfo.parseVolChildren, except_bind_err] at hok
      exact Except.noConfusion hok
    | num q =>
      simp only [HardwareInfo.parseVolChildren, except_bind_err] at hok
      exact Except.noConfusion hok
    | str s2 =>
      simp only [HardwareInfo.parseVolChildren, except_bind_err] at hok
      exact Except.noConfusion hok
    | arr l2 =>
      simp only [HardwareInfo.parseVolChildren, except_bind_err] at hok
      exact Except.noConfusion hok

/-- A `disk`-class child of a found storage node contributes its parsed
device to the storage-phase list. -/
theorem parseStorageChildren_mem (sfs dfs : List (String × Json))
    (ch : List Json) (info : StorageDevice)
    (hch : lookupField sfs "children" = some (.arr ch))
    (hd : Json.obj dfs ∈ ch)
    (hcls : lookupField dfs "class" = some (.str "disk"))
    (hp : HardwareInfo.parse_storage_device dfs = .ok (some info)) :
    ∀ (l : List Json) (b : List StorageDevice),
      HardwareInfo.parseStorageChildren l = .ok b → Json.obj sfs ∈ l →
      info ∈ b := by
  intro l
  induction l with
  | nil => intro b _ hs; cases hs
  | cons x rest ih =>
    intro b hok hs
    simp only [HardwareInfo.parseStorageChildren] at hok
    cases hfs : asObj x with
    | error e => simp [hfs] at hok
    | ok fs =>
      simp only [hfs, except_bind_ok] at hok
      cases hci : HardwareInfo.childrenIter fs with
      | error e => simp [hci] at hok
      | ok cList =>
        simp only [hci, except_bind_ok] at hok
        cases hvol : HardwareInfo.parseVolChildren cList with
        | error e => simp [hvol] at hok
        | ok here =>
          simp only [hvol, except_bind_ok] at hok
          cases hrest : HardwareInfo.parseStorageChildren rest with
          | error e => simp [hrest] at hok
          | ok restL =>
            simp only [hrest, except_bind_ok, except_pure_eq_ok,
              Except.ok.injEq] at hok
            subst hok
            rcases List.mem_cons.mp hs with heq | hmem
            · subst heq
              simp only [asObj, Except.ok.injEq] at hfs
              subst hfs
              simp only [HardwareInfo.childrenIter, hch,
                Except.ok.injEq] at hci
              subst hci
              exact List.mem_append_left _
                (parseVolChildren_mem dfs info hcls hp ch here hvol hd)
            · exact List.mem_append_right _ (ih restL hrest hmem)

/-- Claim C10: when a `disk`-class node (whose parse yields a device) is a
direct child of a `storage`-class node found by the pre-order search, the
device list contains its parsed device at least twice — once from the
global disk-phase, once from the storage-children phase — and the whole
list is the disk-phase devices followed by the storage-phase devices, with
no deduplication. -/
theorem claim_C10 (data : Json) (sfs dfs : List (String × Json))
    (ch storageNodes diskNodes : List Json) (devs : List StorageDevice)
    (info : StorageDevice)
    (hfindS : HardwareInfo.find_nodes_by_class "storage" data = .ok storageNodes)
    (hfindD : HardwareInfo.find_nodes_by_class "disk" data = .ok diskNodes)
    (hs : Json.obj sfs ∈ storageNodes)
    (hch : lookupField sfs "children" = some (.arr ch))
    (hd : Json.obj dfs ∈ ch)
    (hcls : lookupField dfs "class" = some (.str "disk"))
    (hp : HardwareInfo.parse_storage_device dfs = .ok (some info))
    (hdevs : HardwareInfo.extract_storage_devices data = .ok devs) :
    Json.obj dfs ∈ diskNodes ∧
    ∃ a b, HardwareInfo.parseDiskList diskNodes = .ok a ∧
      HardwareInfo.parseStorageChildren storageNodes = .ok b ∧
      devs = a ++ b ∧ info ∈ a ∧ info ∈ b ∧
      ∃ l1 l2 l3, devs = l1 ++ info :: (l2 ++ info :: l3) := by
  have hdisk : Json.obj dfs ∈ diskNodes :=
    findSubtree "storage" "disk" (Json.obj dfs) dfs sfs ch data rfl
      (by rw [hcls]; rfl) hch hd storageNodes diskNodes hfindS hs hfindD
  simp only [HardwareInfo.extract_storage_devices, hfindD, hfindS,
    except_bind_ok] at hdevs
  cases hA : HardwareInfo.parseDiskList diskNodes with
  | error e => simp [hA] at hdevs
  | ok a =>
    simp only [hA, except_bind_ok] at hdevs
    cases hB : HardwareInfo.parseStorageChildren storageNodes with
    | error e => simp [hB] at hdevs
    | ok b =>
      simp only [hB, except_bind_ok, except_pure_eq_ok, Except.ok.injEq] at hdevs
      subst hdevs
      have hia : info ∈ a := parseDiskList_mem dfs info hp diskNodes a hA hdisk
      have hib : info ∈ b :=
        parseStorageChildren_mem sfs dfs ch info hch hd hcls hp
          storageNodes b hB hs
      obtain ⟨s1, t1, hsp1⟩ := List.append_of_mem hia
      obtain ⟨s2, t2, hsp2⟩ := List.append_of_mem hib
      refine ⟨hdisk, a, b, rfl, rfl, rfl, hia, hib, s1, t1 ++ s2, t2, ?_⟩
      rw [hsp1, hsp2]
      simp [List.append_assoc]

/-- Witness for claim C10 at the concrete one-storage-one-disk scenario:
the 1 GiB disk under the storage controller is reported twice. -/
theorem claim_C10_witness :
    Json.obj [("id", .str "disk0"), ("class", .str "disk"),
      ("size", .num 1073741824)] ∈ [diskScenarioNode] ∧
    ∃ a b, HardwareInfo.parseDiskList [diskScenarioNode] = .ok a ∧
      HardwareInfo.parseStorageChildren [storageScenarioNode] = .ok b ∧
      [diskScenarioInfo, diskScenarioInfo] = a ++ b ∧
      diskScenarioInfo ∈ a ∧ diskScenarioInfo ∈ b ∧
      ∃ l1 l2 l3, [diskScenarioInfo, diskScenarioInfo] =
        l1 ++ diskScenarioInfo :: (l2 ++ diskScenarioInfo :: l3) :=
  claim_C10 storageScenarioData
    [("id", .str "storage0"), ("class", .str "storage"),
     ("children", .arr [diskScenarioNode])]
    [("id", .str "disk0"), ("class", .str "disk"), ("size", .num 1073741824)]
    [diskScenarioNode] [storageScenarioNode] [diskScenarioNode]
    [diskScenarioInfo, diskScenarioInfo] diskScenarioInfo
    rfl rfl (List.Mem.head _) rfl (List.Mem.head _) rfl rfl rfl

/-- A field list without a `children` binding makes the PCI children scan
return nothing. -/
theorem pciChildrenScan_none : ∀ (fs : List (String × Json)),
    lookupField fs "children" = none → HardwareInfo.pciChildrenScan fs = .ok [] := by
  intro fs
  induction fs with
  | nil => intro _; rfl
  | cons kv rest ih =>
    obtain ⟨k, v⟩ := kv
    intro h
    by_cases hk : k = "children"
    · subst hk
      simp [lookupField] at h
    · simp [lookupField, hk] at h
      cases v <;>
        (simp only [HardwareInfo.pciChildrenScan]
         rw [if_neg hk]
         exact ih h)

/-- Counterexample to claim C1 as stated: the claim says `parse()` always
succeeds once construction succeeded, with malformed sub-trees degrading —
"including a non-mapping 'data' value and non-numeric 'cores'/'threads'
strings".  In the source both of these raise out of `parse()`: a processor
`configuration.cores` of `"abc"` raises `ValueError` from `int("abc")`, and
a string `data` raises `AttributeError` from `self.data.get(...)`. -/
theorem claim_C1_counterexample :
    (∃ hw, HardwareInfo.init "f" badCoresCapture = .ok hw ∧
      HardwareInfo.parse hw = .error "ValueError: invalid literal for int") ∧
    ∃ hw, HardwareInfo.init "f" strDataCapture = .ok hw ∧
      HardwareInfo.parse hw =
        .error "AttributeError: object has no attribute get" :=
  ⟨⟨⟨.str "node1", badCoresData, "f"⟩, rfl, rfl⟩,
   ⟨⟨.str "n", .str "oops", "f"⟩, rfl, rfl⟩⟩

/-- Claim C1 (amended): construction succeeds exactly when the document is
a dict whose `hardware` key holds a dict, capturing that wrapper's
`node`/`data` (with defaults); otherwise it fails, and on a dict missing
the key — or holding a non-dict under it — the error is the descriptive
`ValueError`.  Each per-category sub-extraction degrades to its
`None`/`0`/`[]` defaults on MISSING sub-trees (no matching nodes, missing
keys); the original claim's stronger promise that malformed sub-trees also
degrade is refuted by `claim_C1_counterexample`. -/
theorem claim_C1 :
    (∀ (name : String) (raw : Json),
      (∃ hw, HardwareInfo.init name raw = .ok hw) ↔
        ∃ fs hfs, raw = .obj fs ∧ lookupField fs "hardware" = some (.obj hfs)) ∧
    (∀ (name : String) (fs hfs : List (String × Json)) (hw : HardwareInfo),
      lookupField fs "hardware" = some (.obj hfs) →
      HardwareInfo.init name (.obj fs) = .ok hw →
      hw.node = (lookupField hfs "node").getD (.str "") ∧
      hw.data = (lookupField hfs "data").getD (.obj [])) ∧
    (∀ (name : String) (raw : Json), (¬ ∃ hw, HardwareInfo.init name raw = .ok hw) →
      ∃ e, HardwareInfo.init name raw = .error e) ∧
    (∀ (name : String) (fs : List (String × Json)),
      lookupField fs "hardware" = none →
      HardwareInfo.init name (.obj fs) =
        .error ("ValueError: Invalid hardware JSON format in " ++ name ++
          ": missing 'hardware' wrapper")) ∧
    (∀ (name : String) (fs : List (String × Json)) (v : Json),
      lookupField fs "hardware" = some v → (∀ hfs, v ≠ .obj hfs) →
      HardwareInfo.init name (.obj fs) =
        .error ("ValueError: Invalid hardware JSON format in " ++ name ++
          ": missing 'hardware' wrapper")) ∧
    (∀ data, HardwareInfo.find_nodes_by_class "processor" data = .ok [] →
      HardwareInfo.extract_cpu_info data =
        .ok ⟨none, .null, 0, 0, 0, none⟩) ∧
    (∀ data, HardwareInfo.find_nodes_by_class "memory" data = .ok [] →
      HardwareInfo.extract_memory_info data = .ok (0, 0)) ∧
    (∀ data, HardwareInfo.find_nodes_by_class "disk" data = .ok [] →
      HardwareInfo.find_nodes_by_class "storage" data = .ok [] →
      HardwareInfo.extract_storage_devices data = .ok []) ∧
    (∀ data, HardwareInfo.find_nodes_by_class "network" data = .ok [] →
      HardwareInfo.extract_network_interfaces data = .ok []) ∧
    (∀ data, HardwareInfo.find_firmware data = .ok none →
      HardwareInfo.extract_bios_info data =
        .ok ⟨.null, .null, .null, none⟩) ∧
    (∀ (fs : List (String × Json)),
      lookupField fs "product" = none → lookupField fs "vendor" = none →
      lookupField fs "configuration" = none →
      HardwareInfo.extract_system_info (.obj fs) =
        .ok ⟨.null, none, none, .null⟩) ∧
    (∀ (fs : List (String × Json)),
      lookupField fs "businfo" = none → lookupField fs "children" = none →
      HardwareInfo.extract_pci_devices (.obj fs) =
        .ok ⟨[], [], [], [], []⟩) := by
  refine ⟨?_, ?_, ?_, ?_, ?_, ?_, ?_, ?_, ?_, ?_, ?_, ?_⟩
  · intro name raw
    constructor
    · rintro ⟨hw, hok⟩
      cases raw with
      | obj fs =>
        cases hlk : lookupField fs "hardware" with
        | none => simp [HardwareInfo.init, hlk] at hok
        | some v =>
          cases v with
          | obj hfs => exact ⟨fs, hfs, rfl, hlk⟩
          | null => simp [HardwareInfo.init, hlk] at hok
          | bool b => simp [HardwareInfo.init, hlk] at hok
          | num q => simp [HardwareInfo.init, hlk] at hok
          | str s2 => simp [HardwareInfo.init, hlk] at hok
          | arr l2 => simp [HardwareInfo.init, hlk] at hok
      | null => simp [HardwareInfo.init] at hok
      | bool b => simp [HardwareInfo.init] at hok
      | num q => simp [HardwareInfo.init] at hok
      | str s2 =>
        simp only [HardwareInfo.init] at hok
        by_cases hc : containsSub s2 "hardware" = true
        · rw [if_pos hc] at hok
          exact Except.noConfusion hok
        · rw [if_neg hc] at hok
          exact Except.noConfusion hok
      | arr items =>
        simp only [HardwareInfo.init] at hok
        by_cases hc : items.any (fun j => jsonEqStr j "hardware") = true
        · rw [if_pos hc] at hok
          exact Except.noConfusion hok
        · rw [if_neg hc] at hok
          exact Except.noConfusion hok
    · rintro ⟨fs, hfs, rfl, hlk⟩
      exact ⟨{ node := (lookupField hfs "node").getD (.str ""),
               data := (lookupField hfs "data").getD (.obj []),
               input_name := name }, by simp [HardwareInfo.init, hlk]⟩
  · intro name fs hfs hw hlk hok
    simp only [HardwareInfo.init, hlk, Except.ok.injEq] at hok
    subst hok
    exact ⟨rfl, rfl⟩
  · intro name raw hne
    cases h : HardwareInfo.init name raw with
    | error e => exact ⟨e, rfl⟩
    | ok hw => exact absurd ⟨hw, h⟩ hne
  · intro name fs hlk
    simp [HardwareInfo.init, hlk]
  · intro name fs v hlk hnv
    cases v with
    | obj hfs => exact absurd rfl (hnv hfs)
    | null => simp [HardwareInfo.init, hlk]
    | bool b => simp [HardwareInfo.init, hlk]
    | num q => simp [HardwareInfo.init, hlk]
    | str s2 => simp [HardwareInfo.init, hlk]
    | arr l2 => simp [HardwareInfo.init, hlk]
  · intro data h
    simp only [HardwareInfo.extract_cpu_info, h, except_bind_ok]
    rfl
  · intro data h
    simp only [HardwareInfo.extract_memory_info, h, except_bind_ok]
    rfl
  · intro data hD hS
    simp only [HardwareInfo.extract_storage_devices, hD, hS, except_bind_ok]
    rfl
  · intro data h
    simp only [HardwareInfo.extract_network_interfaces, h, except_bind_ok]
    rfl
  · intro data h
    simp only [HardwareInfo.extract_bios_info, h, except_bind_ok]
    rfl
  · intro fs h1 h2 h3
    simp only [HardwareInfo.extract_system_info, pyGet, except_bind_ok,
      h1, h2, h3, Option.getD_none]
    rfl
  · intro fs hb hc
    have hscan := pciChildrenScan_none fs hc
    simp only [HardwareInfo.extract_pci_devices,
      HardwareInfo.categorize_pci_recursive, hb, Option.getD_none, asStr,
      except_bind_ok, hscan, except_pure_bind]
    rfl

/-- Witness for claim C1 at concrete documents: a wrapper with an empty
`hardware` dict constructs, an empty dict fails with the `ValueError`
message, and every extractor yields its defaults on the empty data dict. -/
theorem claim_C1_witness :
    (∃ hw, HardwareInfo.init "w" (.obj [("hardware", .obj [])]) = .ok hw) ∧
    HardwareInfo.init "w" (.obj []) =
      .error ("ValueError: Invalid hardware JSON format in " ++ "w" ++
        ": missing 'hardware' wrapper") ∧
    HardwareInfo.extract_cpu_info (.obj []) = .ok ⟨none, .null, 0, 0, 0, none⟩ ∧
    HardwareInfo.extract_memory_info (.obj []) = .ok (0, 0) ∧
    HardwareInfo.extract_storage_devices (.obj []) = .ok [] ∧
    HardwareInfo.extract_network_interfaces (.obj []) = .ok [] ∧
    HardwareInfo.extract_bios_info (.obj []) = .ok ⟨.null, .null, .null, none⟩ ∧
    HardwareInfo.extract_system_info (.obj []) = .ok ⟨.null, none, none, .null⟩ ∧
    HardwareInfo.extract_pci_devices (.obj []) = .ok ⟨[], [], [], [], []⟩ :=
  ⟨(claim_C1.1 "w" _).mpr ⟨[("hardware", .obj [])], [], rfl, rfl⟩,
   claim_C1.2.2.2.1 "w" [] rfl,
   claim_C1.2.2.2.2.2.1 _ rfl,
   claim_C1.2.2.2.2.2.2.1 _ rfl,
   claim_C1.2.2.2.2.2.2.2.1 _ rfl rfl,
   claim_C1.2.2.2.2.2.2.2.2.1 _ rfl,
   claim_C1.2.2.2.2.2.2.2.2.2.1 _ rfl,
   claim_C1.2.2.2.2.2.2.2.2.2.2.1 [] rfl rfl rfl,
   claim_C1.2.2.2.2.2.2.2.2.2.2.2 [] rfl rfl⟩

end DciAnalytics
